import Mathlib

/-!
# SoapyHarogic: ring buffer and stream state machine

A shallow embedding of `HarogicDevice.hpp` / `HarogicDevice.cpp`.

* `size_t` values are natural numbers below `SIZE_MOD = 2^64`; every `size_t`
  addition and subtraction of the source is taken modulo `SIZE_MOD`.
* A `(pointer, length)` input pair is a list; an output pointer is the list of
  the values stored through it, in index order.
-/

set_option linter.unusedSectionVars false

namespace Harogic

/-! ## `size_t` arithmetic -/

/-- Number of values of a 64-bit `size_t`. -/
def SIZE_MOD : Nat := 18446744073709551616

/-- Addition of two `size_t` values (wraps modulo `2^64`). -/
def szAdd (a b : Nat) : Nat := (a + b) % SIZE_MOD

/-- Subtraction of two `size_t` values (wraps modulo `2^64`). -/
def szSub (a b : Nat) : Nat := (a + SIZE_MOD - b % SIZE_MOD) % SIZE_MOD

/-! ## `template <typename T> class RingBuffer` (HarogicDevice.hpp:42-90) -/

/-- The private members of `RingBuffer<T>`; `_size` is the value held by the
`std::atomic<size_t>`. -/
structure RingBuffer (T : Type) where
  _buffer : List T
  _capacity : Nat
  _size : Nat
  _readPos : Nat
  _writePos : Nat
deriving DecidableEq, Repr

namespace RingBuffer

variable {T : Type}

/-- Constructor `RingBuffer(size_t capacity)`: `_buffer.resize(capacity)` fills the
vector with value-initialised elements. -/
def new [Inhabited T] (capacity : Nat) : RingBuffer T :=
  { _buffer := List.replicate capacity default
    _capacity := capacity
    _size := 0
    _readPos := 0
    _writePos := 0 }

/-- The body of the `for` loop of `write`, run over the input samples in index
order; the loop state is `(_buffer, _writePos)`. -/
def writeLoop (capacity : Nat) : List T → List T × Nat → List T × Nat
  | [], st => st
  | x :: xs, st => writeLoop capacity xs (st.1.set st.2 x, szAdd st.2 1 % capacity)

/-- Member `bool write(const T *data, size_t len)`, with `len = data.length`. -/
def write (rb : RingBuffer T) (data : List T) : Bool × RingBuffer T :=
  let len := data.length
  if len > szSub rb._capacity rb._size then (false, rb)
  else
    let st := writeLoop rb._capacity data (rb._buffer, rb._writePos)
    (true, { rb with _buffer := st.1, _writePos := st.2, _size := szAdd rb._size len })

/-- The `for` loop of `read`, run `n` times from read cursor `rp`: the values
stored to `data[0], data[1], ...` and the final read cursor. -/
def readLoop [Inhabited T] (buf : List T) (capacity : Nat) : Nat → Nat → List T × Nat
  | 0, rp => ([], rp)
  | n + 1, rp =>
    let r := readLoop buf capacity n (szAdd rp 1 % capacity)
    (buf.getD rp default :: r.1, r.2)

/-- What a call of `read` produces: the returned count, the samples stored
through the output pointer, and the buffer afterwards. -/
structure ReadResult (T : Type) where
  ret : Nat
  data : List T
  rb : RingBuffer T
deriving DecidableEq, Repr

/-- Member `size_t read(T *data, size_t len)`. -/
def read [Inhabited T] (rb : RingBuffer T) (len : Nat) : ReadResult T :=
  let toRead := min len rb._size
  let r := readLoop rb._buffer rb._capacity toRead rb._readPos
  { ret := toRead
    data := r.1
    rb := { rb with _readPos := r.2, _size := szSub rb._size toRead } }

/-- Member `void clear()`. -/
def clear (rb : RingBuffer T) : RingBuffer T :=
  { rb with _size := 0, _readPos := 0, _writePos := 0 }

/-- Member `size_t size() const`. -/
def size (rb : RingBuffer T) : Nat := rb._size

/-- Member `size_t capacity() const`. -/
def capacity (rb : RingBuffer T) : Nat := rb._capacity

/-- The `n` slots of `buf` starting at index `rp`, taken circularly modulo
`capacity`. -/
def slots [Inhabited T] (buf : List T) (capacity rp n : Nat) : List T :=
  (List.range n).map fun i => buf.getD ((rp + i) % capacity) default

/-- The stored samples, oldest first: the `_size` slots of `_buffer` starting at
`_readPos`, taken circularly. -/
def stored [Inhabited T] (rb : RingBuffer T) : List T :=
  slots rb._buffer rb._capacity rb._readPos rb._size

/-- The class invariant of `RingBuffer`. -/
def WF (rb : RingBuffer T) : Prop :=
  rb._capacity < SIZE_MOD ∧ rb._buffer.length = rb._capacity ∧ rb._size ≤ rb._capacity ∧
  (rb._capacity = 0 ∨ rb._readPos < rb._capacity) ∧
  rb._writePos = (rb._readPos + rb._size) % rb._capacity

/-- The states a buffer can be in: those obtained from a freshly constructed
buffer by `write`, `read` and `clear` calls with arbitrary arguments. -/
inductive Reachable [Inhabited T] : RingBuffer T → Prop
  | new (capacity : Nat) (h : capacity < SIZE_MOD) : Reachable (RingBuffer.new capacity)
  | write (rb : RingBuffer T) (data : List T) : Reachable rb → Reachable (rb.write data).2
  | read (rb : RingBuffer T) (len : Nat) : Reachable rb → Reachable (rb.read len).rb
  | clear (rb : RingBuffer T) : Reachable rb → Reachable rb.clear

/-- A call made on a ring buffer by its producer or its consumer. -/
inductive Op (T : Type) where
  | write (data : List T)
  | read (len : Nat)
deriving DecidableEq, Repr

/-- Observations of a run: the results of the `write` calls, the concatenation
of the samples returned by the `read` calls, and the final buffer. -/
structure Trace (T : Type) where
  writeResults : List Bool
  readOut : List T
  rb : RingBuffer T
deriving DecidableEq, Repr

/-- Runs a sequence of calls, accumulating the observations. -/
def runFrom [Inhabited T] (acc : Trace T) : List (Op T) → Trace T
  | [] => acc
  | Op.write data :: ops =>
    let w := acc.rb.write data
    runFrom { acc with writeResults := acc.writeResults ++ [w.1], rb := w.2 } ops
  | Op.read len :: ops =>
    let r := acc.rb.read len
    runFrom { acc with readOut := acc.readOut ++ r.data, rb := r.rb } ops

/-- Runs a sequence of calls on buffer `rb`. -/
def run [Inhabited T] (rb : RingBuffer T) (ops : List (Op T)) : Trace T :=
  runFrom { writeResults := [], readOut := [], rb := rb } ops

/-- The concatenation of the samples passed to the `write` calls. -/
def written : List (Op T) → List T
  | [] => []
  | Op.write data :: ops => data ++ written ops
  | Op.read _ :: ops => written ops

/-- The number of `write` calls in a sequence of calls. -/
def numWrites : List (Op T) → Nat
  | [] => 0
  | Op.write _ :: ops => numWrites ops + 1
  | Op.read _ :: ops => numWrites ops

/-- A call of one of the three mutating member functions. -/
inductive Call (T : Type) where
  | write (data : List T)
  | read (len : Nat)
  | clear
deriving DecidableEq, Repr

/-- The buffer after one call. -/
def step [Inhabited T] (rb : RingBuffer T) : Call T → RingBuffer T
  | Call.write data => (rb.write data).2
  | Call.read len => (rb.read len).rb
  | Call.clear => rb.clear

/-- The buffer after a sequence of calls. -/
def exec [Inhabited T] (rb : RingBuffer T) (calls : List (Call T)) : RingBuffer T :=
  calls.foldl step rb

/-- Capacity 8 with five samples written (spec section 8, first scenario). -/
def scenarioFive : RingBuffer Nat :=
  ((RingBuffer.new 8).write [11, 12, 13, 14, 15]).2

/-- A capacity 4 round trip whose cursors both wrap to slot 0. -/
def scenarioWrap : List (Op Nat) :=
  [Op.write [1, 2, 3], Op.read 2, Op.write [4], Op.read 1, Op.read 9]

/-- A full buffer of capacity 3 whose stored samples straddle the end of the
storage (`_readPos = 2`). -/
def scenarioFull : RingBuffer Nat :=
  exec (RingBuffer.new 3) [Call.write [1, 2], Call.read 2, Call.write [3, 4, 5]]

end RingBuffer

/-! ## Constants and types from headers outside `src/` -/

/-- Value of `SOAPY_SDR_TIMEOUT` in SoapySDR/Errors.h. -/
def SOAPY_SDR_TIMEOUT : Int := -1

/-- Value of `SOAPY_SDR_STREAM_ERROR` in SoapySDR/Errors.h. -/
def SOAPY_SDR_STREAM_ERROR : Int := -2

/-- Value of `SOAPY_SDR_END_BURST` in SoapySDR/Constants.h, `(1 << 1)`. -/
def SOAPY_SDR_END_BURST : Int := 2

/-- Value of `SOAPY_SDR_RX` in SoapySDR/Constants.h. -/
def SOAPY_SDR_RX : Int := 1

/-- Value of `SOAPY_SDR_CF32` in SoapySDR/Formats.h. -/
def SOAPY_SDR_CF32 : String := "CF32"

/-- The macros used by the driver whose definitions are not part of the
sources at hand: `RING_BUFFER_SIZE` and `RESOLTRIG` of the driver, and the two
warning codes of the vendor header `htra_api.h`. -/
structure Consts where
  RING_BUFFER_SIZE : Nat
  RESOLTRIG : ℚ
  APIRETVAL_WARNING_BusTimeOut : Int
  APIRETVAL_WARNING_IFOverflow : Int
deriving DecidableEq, Repr

/-- Largest value of `int`. -/
def INT_MAX : Nat := 2147483647

/-- Conversion of a `size_t` value to `int` (32 bits, two's complement), as
performed by `return num_read;` in `readStream`. -/
def toInt (n : Nat) : Int :=
  if n % 4294967296 < 2147483648 then ((n % 4294967296 : Nat) : Int)
  else ((n % 4294967296 : Nat) : Int) - 4294967296

/-- A `std::complex<float>` sample; the two `float` components are kept as
exact rationals. -/
abbrev Sample := ℚ × ℚ

/-- Enumerators of `DataFormat_TypeDef` named by the driver; `other` stands for
the remaining enumerators of the vendor header. -/
inductive DataFormat_TypeDef where
  | Complex16bit
  | Complex8bit
  | other (code : Nat)
deriving DecidableEq, Repr

/-- Enumerators of the trigger source named by the driver. -/
inductive TriggerSource_TypeDef where
  | Bus
  | other (code : Nat)
deriving DecidableEq, Repr

/-- Enumerators of the trigger mode named by the driver. -/
inductive TriggerMode_TypeDef where
  | Adaptive
  | other (code : Nat)
deriving DecidableEq, Repr

/-- Enumerators of `RxPort_TypeDef` named by the driver. -/
inductive RxPort_TypeDef where
  | ExternalPort
  | InternalPort
  | ANT_Port
  | TR_Port
  | SWR_Port
  | INT_Port
  | other (code : Nat)
deriving DecidableEq, Repr

/-- Enumerators of `GainStrategy_TypeDef` named by the driver. -/
inductive GainStrategy_TypeDef where
  | LowNoisePreferred
  | HighLinearityPreferred
  | other (code : Nat)
deriving DecidableEq, Repr

/-- Enumerators of `PreamplifierState_TypeDef` named by the driver. -/
inductive PreamplifierState_TypeDef where
  | AutoOn
  | ForcedOff
  | other (code : Nat)
deriving DecidableEq, Repr

/-- Enumerators of `LOOptimization_TypeDef` named by the driver. -/
inductive LOOptimization_TypeDef where
  | LOOpt_Auto
  | LOOpt_Speed
  | LOOpt_Spur
  | LOOpt_PhaseNoise
  | other (code : Nat)
deriving DecidableEq, Repr

/-- The fields of `IQS_Profile_TypeDef` that the driver reads or writes;
`double` and `float` fields are kept as exact rationals. -/
structure IQS_Profile_TypeDef where
  Atten : Int
  BusTimeout_ms : Nat
  TriggerSource : TriggerSource_TypeDef
  TriggerMode : TriggerMode_TypeDef
  DataFormat : DataFormat_TypeDef
  CenterFreq_Hz : ℚ
  RefLevel_dBm : ℚ
  DecimateFactor : Nat
  RxPort : RxPort_TypeDef
  GainStrategy : GainStrategy_TypeDef
  Preamplifier : PreamplifierState_TypeDef
  EnableIFAGC : Bool
  LOOptimization : LOOptimization_TypeDef
  NativeIQSampleRate_SPS : ℚ
deriving DecidableEq, Repr

/-- A call of the vendor SDK, with the profile passed in and the code
returned where the driver looks at them. -/
inductive DeviceCall where
  | Device_Open (ret : Int)
  | IQS_ProfileDeInit
  | IQS_Configuration (ProfileIn : IQS_Profile_TypeDef) (ret : Int)
  | IQS_BusTriggerStart (ret : Int)
  | IQS_BusTriggerStop
  | Device_Close
  | IQS_GetIQStream_PM1 (ret : Int)
deriving DecidableEq, Repr

/-- The null pointer. -/
def nullptr : Nat := 0

/-! ## `class SoapyHarogic` (HarogicDevice.hpp:93-195, HarogicDevice.cpp) -/

/-- The data members of `SoapyHarogic` (`_dev_info`, the two mutexes and the
condition variable carry no state of this model and are left out).
`_dev_handle` is the pointer value, `_rx_worker_thread` is `joinable()` of the
thread object, `_force_8bit` and `_overflow_flag` are the members initialised
at HarogicDevice.cpp:37-38. The last field is not a member: `calls` records the
vendor calls made so far, oldest first. -/
structure SoapyHarogic where
  _serial : String
  _dev_index : Int
  _dev_handle : Nat
  _profile : IQS_Profile_TypeDef
  _samps_int8 : Bool
  _mtu : Nat
  _rx_thread_running : Bool
  _rx_worker_thread : Bool
  _ring_buffer : RingBuffer Sample
  _sample_rate : ℚ
  _center_freq : ℚ
  _ref_level : Int
  _antenna : String
  _gain_strategy : GainStrategy_TypeDef
  _preamp_mode : PreamplifierState_TypeDef
  _if_agc : Bool
  _lo_mode : LOOptimization_TypeDef
  _available_sample_rates : List ℚ
  _rx_ports : List (String × RxPort_TypeDef)
  _force_8bit : Bool
  _overflow_flag : Bool
  calls : List DeviceCall
deriving DecidableEq, Repr

/-- How a member function call ends: by returning a code, by the
`std::out_of_range` exception of `std::map::at`, or in `std::terminate` (move
assignment to a joinable `std::thread`). -/
inductive Outcome where
  | returned (code : Int)
  | out_of_range
  | terminate
deriving DecidableEq, Repr

/-- What the vendor calls made by one `activateStream` answer: return codes,
the handle stored by `Device_Open`, the profile stored by `IQS_ProfileDeInit`,
and `ProfileOut` and `info.PacketSamples` stored by `IQS_Configuration`. -/
structure ActivateAnswers where
  Device_Open_ret : Int
  Device_Open_handle : Nat
  IQS_ProfileDeInit_profile : IQS_Profile_TypeDef
  IQS_Configuration_ret : Int
  IQS_Configuration_ProfileOut : IQS_Profile_TypeDef
  IQS_Configuration_PacketSamples : Nat
  IQS_BusTriggerStart_ret : Int
deriving DecidableEq, Repr

/-- The fields of the `IQStream_TypeDef iqs` that the worker reads after a
pull: `IQS_StreamInfo.PacketSamples` and `AlternIQStream` (`none` is the null
pointer; otherwise the interleaved I/Q values as read through the `int8_t*` or
`int16_t*` cast in effect). -/
structure IQStream_TypeDef where
  PacketSamples : Nat
  AlternIQStream : Option (List Int)
deriving DecidableEq, Repr

/-- The answer of one `IQS_GetIQStream_PM1` call. -/
structure Pull where
  ret : Int
  iqs : IQStream_TypeDef
deriving DecidableEq, Repr

/-- How an iteration of the worker loop ends: `next` for falling through or
`continue`, `stop` for `break`. -/
inductive LoopCtl where
  | next
  | stop
deriving DecidableEq, Repr

/-- What a `readStream` call produces: the returned `int`, the samples stored
through `buffs[0]`, the caller's `flags` variable after the call, and the
object afterwards. -/
structure ReadStreamResult where
  ret : Int
  buffs0 : List Sample
  flags : Int
  self : SoapyHarogic
deriving DecidableEq, Repr

/-- What a `void` or pointer-returning member function call raises: nothing,
a `std::runtime_error` with its message, or the `std::out_of_range` of
`std::map::at`. -/
inductive Raised where
  | none
  | runtime_error (what : String)
  | out_of_range
deriving DecidableEq, Repr

/-- What the vendor calls made by one `_apply_settings` answer. -/
structure ApplyAnswers where
  IQS_Configuration_ret : Int
  IQS_Configuration_ProfileOut : IQS_Profile_TypeDef
  IQS_Configuration_PacketSamples : Nat
  IQS_BusTriggerStart_ret : Int
deriving DecidableEq, Repr

namespace SoapyHarogic

/-- Effect of one vendor call on whether a device is held open: a
`Device_Open` that did not fail opens it, a `Device_Close` closes it. -/
def handleStep (isOpen : Bool) : DeviceCall → Bool
  | DeviceCall.Device_Open ret => if ret < 0 then isOpen else true
  | DeviceCall.Device_Close => false
  | _ => isOpen

/-- Whether the device that the recorded calls opened last, which is the one
the stored handle stands for, is still open. -/
def handleOpen (calls : List DeviceCall) : Bool :=
  calls.foldl handleStep false

/-- Modelled from the spec: `Device_Open(&_dev_handle, _dev_index, ...)` of the
vendor SDK, whose code is not part of the sources; section 6 gives it as
"open-device-by-index(profile) → handle|error", so a call that answers an
error code (negative) stores no handle. -/
def Device_Open (s : SoapyHarogic) (ret : Int) (handle : Nat) : SoapyHarogic :=
  { s with _dev_handle := if ret < 0 then s._dev_handle else handle
           calls := s.calls ++ [DeviceCall.Device_Open ret] }

/-- Modelled from the spec: `IQS_ProfileDeInit(&_dev_handle, &_profile)` of the
vendor SDK ("negotiate-default-profile(handle)"): stores the default profile. -/
def IQS_ProfileDeInit (s : SoapyHarogic) (profile : IQS_Profile_TypeDef) : SoapyHarogic :=
  { s with _profile := profile, calls := s.calls ++ [DeviceCall.IQS_ProfileDeInit] }

/-- Modelled from the spec: `IQS_Configuration(&_dev_handle, &_profile,
&_profile, &info)` of the vendor SDK ("configure(handle, requestedProfile) →
negotiatedProfile | error"): unless it answers an error code it stores the
negotiated profile in `_profile`. -/
def IQS_Configuration (s : SoapyHarogic) (ret : Int) (ProfileOut : IQS_Profile_TypeDef) :
    SoapyHarogic :=
  { s with _profile := if ret < 0 then s._profile else ProfileOut
           calls := s.calls ++ [DeviceCall.IQS_Configuration s._profile ret] }

/-- Modelled from the spec: `IQS_BusTriggerStart(&_dev_handle)` of the vendor SDK. -/
def IQS_BusTriggerStart (s : SoapyHarogic) (ret : Int) : SoapyHarogic :=
  { s with calls := s.calls ++ [DeviceCall.IQS_BusTriggerStart ret] }

/-- Modelled from the spec: `IQS_BusTriggerStop(&_dev_handle)` of the vendor SDK. -/
def IQS_BusTriggerStop (s : SoapyHarogic) : SoapyHarogic :=
  { s with calls := s.calls ++ [DeviceCall.IQS_BusTriggerStop] }

/-- Modelled from the spec: `Device_Close(&_dev_handle)` of the vendor SDK. -/
def Device_Close (s : SoapyHarogic) : SoapyHarogic :=
  { s with calls := s.calls ++ [DeviceCall.Device_Close] }

/-- The six entries put in `_rx_ports` by the constructor, in key order. -/
def rxPorts : List (String × RxPort_TypeDef) :=
  [("ANT", RxPort_TypeDef.ANT_Port), ("External", RxPort_TypeDef.ExternalPort),
   ("INT", RxPort_TypeDef.INT_Port), ("Internal", RxPort_TypeDef.InternalPort),
   ("SWR", RxPort_TypeDef.SWR_Port), ("T/R", RxPort_TypeDef.TR_Port)]

/-- The object when the constructor (HarogicDevice.cpp:23-89) completes without
throwing, for a device found at index `dev_index` with serial `serial` whose
default profile reports the native rate `native`; `profile` is the content of
the member `_profile`, which the constructor does not initialise. -/
def init (k : Consts) (serial : String) (dev_index : Int) (native : ℚ)
    (profile : IQS_Profile_TypeDef) : SoapyHarogic :=
  { _serial := serial
    _dev_index := dev_index
    _dev_handle := nullptr
    _profile := profile
    _samps_int8 := false
    _mtu := 0
    _rx_thread_running := false
    _rx_worker_thread := false
    _ring_buffer := RingBuffer.new k.RING_BUFFER_SIZE
    _sample_rate := native / 1
    _center_freq := 100000000
    _ref_level := -10
    _antenna := "External"
    _gain_strategy := GainStrategy_TypeDef.LowNoisePreferred
    _preamp_mode := PreamplifierState_TypeDef.AutoOn
    _if_agc := false
    _lo_mode := LOOptimization_TypeDef.LOOpt_Auto
    _available_sample_rates := (List.range 8).map fun i => native / (2 ^ i : ℚ)
    _rx_ports := rxPorts
    _force_8bit := false
    _overflow_flag := false
    calls := [] }

/-- The assignments to `_profile` at HarogicDevice.cpp:174-181, which precede
the lookup `_rx_ports.at(_antenna)`. The cast `(uint32_t)(a / b)` is the integer
part of the exact quotient, reduced modulo `2^32`. -/
def profileHead (s : SoapyHarogic) : SoapyHarogic :=
  { s with _profile := { s._profile with
      Atten := -1
      BusTimeout_ms := 1000
      TriggerSource := TriggerSource_TypeDef.Bus
      TriggerMode := TriggerMode_TypeDef.Adaptive
      DataFormat := if s._samps_int8 then DataFormat_TypeDef.Complex8bit
        else DataFormat_TypeDef.Complex16bit
      CenterFreq_Hz := s._center_freq
      RefLevel_dBm := (s._ref_level : ℚ)
      DecimateFactor :=
        (Rat.floor (s._available_sample_rates.getD 0 0 / s._sample_rate)).toNat % 4294967296 } }

/-- The assignments to `_profile` at HarogicDevice.cpp:182-186, for the port
`port` found by `_rx_ports.at(_antenna)`. -/
def profileTail (s : SoapyHarogic) (port : RxPort_TypeDef) : SoapyHarogic :=
  { s with _profile := { s._profile with
      RxPort := port
      GainStrategy := s._gain_strategy
      Preamplifier := s._preamp_mode
      EnableIFAGC := s._if_agc
      LOOptimization := s._lo_mode } }

/-- The tail of `activateStream` from the `IQS_Configuration` call on
(HarogicDevice.cpp:206-216). -/
def activateConfigured (s : SoapyHarogic) (dev : ActivateAnswers) : SoapyHarogic × Outcome :=
  let s := IQS_Configuration s dev.IQS_Configuration_ret dev.IQS_Configuration_ProfileOut
  if dev.IQS_Configuration_ret < 0 then
    ({ Device_Close s with _dev_handle := nullptr }, Outcome.returned SOAPY_SDR_STREAM_ERROR)
  else
    let s := { s with _mtu := dev.IQS_Configuration_PacketSamples }
    if s._mtu = 0 then
      ({ Device_Close s with _dev_handle := nullptr }, Outcome.returned SOAPY_SDR_STREAM_ERROR)
    else
      let s := IQS_BusTriggerStart s dev.IQS_BusTriggerStart_ret
      if dev.IQS_BusTriggerStart_ret < 0 then
        ({ Device_Close s with _dev_handle := nullptr }, Outcome.returned SOAPY_SDR_STREAM_ERROR)
      else
        let s := { s with _rx_thread_running := true }
        if s._rx_worker_thread then (s, Outcome.terminate)
        else ({ s with _rx_worker_thread := true }, Outcome.returned 0)

/-- Member `int activateStream(SoapySDR::Stream *, const int, const long long,
const size_t)` (HarogicDevice.cpp:160-217); the four parameters are unused. -/
def activateStream (k : Consts) (s : SoapyHarogic) (dev : ActivateAnswers) :
    SoapyHarogic × Outcome :=
  if s._rx_thread_running then (s, Outcome.returned 0)
  else
    let s := { s with _samps_int8 := decide (s._sample_rate > k.RESOLTRIG) || s._force_8bit }
    let s := Device_Open s dev.Device_Open_ret dev.Device_Open_handle
    if dev.Device_Open_ret < 0 then (s, Outcome.returned SOAPY_SDR_STREAM_ERROR)
    else
      let s := profileHead (IQS_ProfileDeInit s dev.IQS_ProfileDeInit_profile)
      match s._rx_ports.lookup s._antenna with
      | none => (s, Outcome.out_of_range)
      | some port => activateConfigured (profileTail s port) dev

/-- Member `int deactivateStream(SoapySDR::Stream *, const int, const long long)`
(HarogicDevice.cpp:219-234); `join()` leaves the thread object not joinable. -/
def deactivateStream (s : SoapyHarogic) : SoapyHarogic × Int :=
  if !s._rx_thread_running && !s._rx_worker_thread then (s, 0)
  else
    let s := { s with _rx_thread_running := false }
    let s := if s._rx_worker_thread then { s with _rx_worker_thread := false } else s
    let s := if s._dev_handle ≠ nullptr then
        { Device_Close (IQS_BusTriggerStop s) with _dev_handle := nullptr }
      else s
    (s, 0)

/-- The predicate passed to `_buffer_cv.wait_for` in `readStream`. -/
def waitPred (s : SoapyHarogic) (numElems : Nat) : Bool :=
  decide (s._ring_buffer.size ≥ numElems) || !s._rx_thread_running

/-- Member `int readStream(SoapySDR::Stream *, void *const *buffs, const size_t
numElems, int &flags, long long &, const long timeoutUs)`
(HarogicDevice.cpp:236-257), on the object `s` as it is when `wait_for` stops
waiting. `wait_for(lock, timeout, pred)` returns the value of `pred` at that
moment: `false` when the timeout elapsed with `pred` still false. The iterations
that the worker completes while the call is blocked are steps of their own
(`workerStep`) that precede `s`. -/
def readStream (s : SoapyHarogic) (numElems : Nat) (flags : Int) : ReadStreamResult :=
  if !waitPred s numElems then
    { ret := SOAPY_SDR_TIMEOUT, buffs0 := [], flags := flags, self := s }
  else if !s._rx_thread_running && decide (s._ring_buffer.size < numElems) then
    { ret := SOAPY_SDR_STREAM_ERROR, buffs0 := [], flags := flags, self := s }
  else
    let flags : Int := 0
    let flags := if s._overflow_flag then Int.lor flags SOAPY_SDR_END_BURST else flags
    let s := { s with _overflow_flag := false }
    let r := s._ring_buffer.read numElems
    { ret := toInt r.ret, buffs0 := r.data, flags := flags, self := { s with _ring_buffer := r.rb } }

/-- The conversion loops of the worker (HarogicDevice.cpp:290-296): sample `i`
is `(in[2*i] / 127, in[2*i+1] / 127)` in 8-bit mode and
`(in[2*i] / 32767, in[2*i+1] / 32767)` otherwise, the quotients taken exactly. -/
def convert (samps_int8 : Bool) (inp : List Int) (packetSamples : Nat) : List Sample :=
  (List.range packetSamples).map fun i =>
    if samps_int8 then
      (((inp.getD (2 * i) 0 : Int) : ℚ) / 127, ((inp.getD (2 * i + 1) 0 : Int) : ℚ) / 127)
    else
      (((inp.getD (2 * i) 0 : Int) : ℚ) / 32767, ((inp.getD (2 * i + 1) 0 : Int) : ℚ) / 32767)

/-- One iteration of the `while` loop of `_rx_thread` (HarogicDevice.cpp:265-304)
for the pull answer `p`. The rejected `write` only logs. -/
def rxIteration (k : Consts) (s : SoapyHarogic) (p : Pull) : SoapyHarogic × LoopCtl :=
  let s := { s with calls := s.calls ++ [DeviceCall.IQS_GetIQStream_PM1 p.ret] }
  if p.ret < 0 then
    if p.ret = k.APIRETVAL_WARNING_BusTimeOut then (s, LoopCtl.next)
    else if p.ret = k.APIRETVAL_WARNING_IFOverflow then
      ({ s with _overflow_flag := true }, LoopCtl.next)
    else ({ s with _rx_thread_running := false }, LoopCtl.stop)
  else
    let packetSamples := p.iqs.PacketSamples
    match p.iqs.AlternIQStream with
    | none => (s, LoopCtl.next)
    | some inp =>
      if packetSamples = 0 then (s, LoopCtl.next)
      else
        let temp_buf := convert s._samps_int8 inp packetSamples
        let w := s._ring_buffer.write temp_buf
        ({ s with _ring_buffer := w.2 }, LoopCtl.next)

/-- One step of the worker thread: the loop `while (_rx_thread_running)` runs
an iteration only while the flag is set. -/
def workerStep (k : Consts) (s : SoapyHarogic) (p : Pull) : SoapyHarogic :=
  if s._rx_thread_running then (rxIteration k s p).1 else s

/-- The Idle state of the stream state machine: not running, no worker thread
to join, no stored handle and no device held open. -/
def Idle (s : SoapyHarogic) : Prop :=
  s._rx_thread_running = false ∧ s._rx_worker_thread = false ∧ s._dev_handle = nullptr ∧
  handleOpen s.calls = false

/-- The Streaming state of the stream state machine. -/
def Streaming (s : SoapyHarogic) : Prop := s._rx_thread_running = true

/-- The ring buffer of the object is in a state the class can reach, and every
sample count it can hold is representable as an `int`. -/
def RingFits (s : SoapyHarogic) : Prop :=
  RingBuffer.Reachable s._ring_buffer ∧ s._ring_buffer.capacity ≤ INT_MAX

/-- One of the four steps of `activateStream` fails: `Device_Open` or
`IQS_Configuration` answers a negative code, the negotiated MTU is 0, or
`IQS_BusTriggerStart` answers a negative code. -/
def StepFails (dev : ActivateAnswers) : Prop :=
  dev.Device_Open_ret < 0 ∨ dev.IQS_Configuration_ret < 0 ∨
  dev.IQS_Configuration_PacketSamples = 0 ∨ dev.IQS_BusTriggerStart_ret < 0

/-- A step of the system: an iteration of the worker for a pull answer, or a
call of the stream API by the consumer. -/
inductive Event where
  | pull (p : Pull)
  | readStream (numElems : Nat) (flags : Int)
  | activateStream (dev : ActivateAnswers)
  | deactivateStream
deriving DecidableEq, Repr

/-- What a step shows of the discontinuity signalling: the device reported an
IF overflow to the running worker; a `readStream` returned a count and left
`flags` in the caller's variable; a `readStream` returned a negative code,
with the caller's variable before and after; anything else. -/
inductive Obs where
  | overflow
  | readOk (flags : Int)
  | readFailed (flagsIn flagsOut : Int)
  | other
deriving DecidableEq, Repr

/-- Runs the events on the object and lists what each one shows; a call that
ends in `std::terminate` ends the run. -/
def observe (k : Consts) : SoapyHarogic → List Event → List Obs
  | _, [] => []
  | s, Event.pull p :: es =>
    (if s._rx_thread_running = true ∧ p.ret = k.APIRETVAL_WARNING_IFOverflow then Obs.overflow
      else Obs.other) :: observe k (workerStep k s p) es
  | s, Event.readStream numElems flags :: es =>
    (if 0 ≤ (readStream s numElems flags).ret then Obs.readOk (readStream s numElems flags).flags
      else Obs.readFailed flags (readStream s numElems flags).flags)
      :: observe k (readStream s numElems flags).self es
  | s, Event.activateStream dev :: es =>
    if (activateStream k s dev).2 = Outcome.terminate then [Obs.other]
    else Obs.other :: observe k (activateStream k s dev).1 es
  | s, Event.deactivateStream :: es => Obs.other :: observe k (deactivateStream s).1 es

/-- The spec's rule for the discontinuity flag, on the observations alone:
`pending` is set by a device overflow and cleared by the next successful read,
which is the only read to report `SOAPY_SDR_END_BURST`; a successful read with
nothing pending reports 0; a failed read reports nothing and clears nothing. -/
def deliveredOnce : Bool → List Obs → Prop
  | _, [] => True
  | _, Obs.overflow :: os => deliveredOnce true os
  | pending, Obs.readOk flags :: os =>
    flags = (if pending then SOAPY_SDR_END_BURST else 0) ∧ deliveredOnce false os
  | pending, Obs.readFailed flagsIn flagsOut :: os =>
    flagsOut = flagsIn ∧ deliveredOnce pending os
  | pending, Obs.other :: os => deliveredOnce pending os

/-! ### Sample values for the scenarios -/

/-- Sample values for the four macros. -/
def sampleConsts : Consts :=
  { RING_BUFFER_SIZE := 8
    RESOLTRIG := 64000000
    APIRETVAL_WARNING_BusTimeOut := -10
    APIRETVAL_WARNING_IFOverflow := -12 }

/-- A sample profile as the vendor may store it. -/
def sampleProfile : IQS_Profile_TypeDef :=
  { Atten := 0
    BusTimeout_ms := 100
    TriggerSource := TriggerSource_TypeDef.other 0
    TriggerMode := TriggerMode_TypeDef.other 0
    DataFormat := DataFormat_TypeDef.Complex16bit
    CenterFreq_Hz := 1000000000
    RefLevel_dBm := 0
    DecimateFactor := 1
    RxPort := RxPort_TypeDef.ExternalPort
    GainStrategy := GainStrategy_TypeDef.LowNoisePreferred
    Preamplifier := PreamplifierState_TypeDef.AutoOn
    EnableIFAGC := false
    LOOptimization := LOOptimization_TypeDef.LOOpt_Auto
    NativeIQSampleRate_SPS := 122880000 }

/-- A freshly constructed object. -/
def sampleIdle : SoapyHarogic := init sampleConsts "1A2B" 0 122880000 sampleProfile

/-- Vendor answers of an activation in which every step succeeds, MTU 4. -/
def sampleAnswers : ActivateAnswers :=
  { Device_Open_ret := 0
    Device_Open_handle := 4096
    IQS_ProfileDeInit_profile := sampleProfile
    IQS_Configuration_ret := 0
    IQS_Configuration_ProfileOut := sampleProfile
    IQS_Configuration_PacketSamples := 4
    IQS_BusTriggerStart_ret := 0 }

/-- The object after a successful activation: streaming, ring buffer empty. -/
def sampleStreaming : SoapyHarogic := (activateStream sampleConsts sampleIdle sampleAnswers).1

/-- A streaming object with four samples buffered. -/
def sampleBuffered : SoapyHarogic :=
  { sampleStreaming with
    _ring_buffer := (sampleStreaming._ring_buffer.write [(1, 0), (0, 1), (-1, 0), (0, -1)]).2 }

/-- A pull answering a fatal error code. -/
def fatalPull : Pull := { ret := -1, iqs := { PacketSamples := 0, AlternIQStream := none } }

/-- A pull answering the IF overflow warning of `sampleConsts`. -/
def overflowPull : Pull := { ret := -12, iqs := { PacketSamples := 0, AlternIQStream := none } }

/-- An overflow, a read that times out, two reads that succeed, a second
overflow and a last read. -/
def sampleEvents : List Event :=
  [Event.pull overflowPull, Event.readStream 9 5, Event.readStream 1 0, Event.readStream 1 0,
   Event.pull overflowPull, Event.readStream 1 0]

/-- Vendor answers of an activation whose trigger start fails. -/
def sampleTriggerFails : ActivateAnswers := { sampleAnswers with IQS_BusTriggerStart_ret := -3 }

/-- The object after the worker met a fatal pull error with four samples buffered. -/
def sampleStopped : SoapyHarogic := workerStep sampleConsts sampleBuffered fatalPull

/-! ### Control API (HarogicDevice.cpp:135-156, 328-421) -/

/-- The profile assignments of `_apply_settings` that precede the lookup
`_rx_ports.at(_antenna)` (HarogicDevice.cpp:406-409). -/
def applyHead (s : SoapyHarogic) : SoapyHarogic :=
  { s with _profile := { s._profile with
      DataFormat := if s._samps_int8 then DataFormat_TypeDef.Complex8bit
        else DataFormat_TypeDef.Complex16bit
      CenterFreq_Hz := s._center_freq
      RefLevel_dBm := (s._ref_level : ℚ)
      DecimateFactor :=
        (Rat.floor (s._available_sample_rates.getD 0 0 / s._sample_rate)).toNat % 4294967296 } }

/-- Member `void _apply_settings()` (HarogicDevice.cpp:395-421); the result of
`IQS_BusTriggerStart` is only logged. -/
def _apply_settings (k : Consts) (s : SoapyHarogic) (dev : ApplyAnswers) :
    SoapyHarogic × Raised :=
  if s._dev_handle = nullptr then (s, Raised.none)
  else
    let s := { s with _samps_int8 := decide (s._sample_rate > k.RESOLTRIG) || s._force_8bit }
    let s := applyHead s
    match s._rx_ports.lookup s._antenna with
    | none => (s, Raised.out_of_range)
    | some port =>
      let s := profileTail s port
      let s := IQS_Configuration s dev.IQS_Configuration_ret dev.IQS_Configuration_ProfileOut
      if dev.IQS_Configuration_ret < 0 then (s, Raised.none)
      else
        let s := { s with _mtu := dev.IQS_Configuration_PacketSamples }
        (IQS_BusTriggerStart s dev.IQS_BusTriggerStart_ret, Raised.none)

/-- The tail `if (_rx_thread_running) _apply_settings();` shared by the setters. -/
def applyIfRunning (k : Consts) (s : SoapyHarogic) (dev : ApplyAnswers) :
    SoapyHarogic × Raised :=
  if s._rx_thread_running then _apply_settings k s dev else (s, Raised.none)

/-- Member `setupStream(direction, format, channels, args)`
(HarogicDevice.cpp:135-150); `args` is the `Kwargs` map as a list of pairs, the
channel list is unused and the returned pointer is `this`. -/
def setupStream (k : Consts) (s : SoapyHarogic) (direction : Int) (format : String)
    (args : List (String × String)) : SoapyHarogic × Raised :=
  if direction ≠ SOAPY_SDR_RX then
    (s, Raised.runtime_error "Harogic driver only supports RX")
  else if format ≠ SOAPY_SDR_CF32 then
    (s, Raised.runtime_error "Please request CF32 format.")
  else
    let s := match args.lookup "force_8bit" with
      | some v => { s with _force_8bit := decide (v = "true") }
      | none => s
    ({ s with _samps_int8 := decide (s._sample_rate > k.RESOLTRIG) || s._force_8bit },
      Raised.none)

/-- Member `void closeStream(SoapySDR::Stream *)` (HarogicDevice.cpp:152-156). -/
def closeStream (s : SoapyHarogic) : SoapyHarogic :=
  let s := (deactivateStream s).1
  { s with _ring_buffer := s._ring_buffer.clear, _force_8bit := false }

/-- Member `void setAntenna(const int, const size_t, const std::string &name)`
(HarogicDevice.cpp:354-358). -/
def setAntenna (k : Consts) (s : SoapyHarogic) (name : String) (dev : ApplyAnswers) :
    SoapyHarogic × Raised :=
  if (s._rx_ports.lookup name).isNone then
    (s, Raised.runtime_error ("Invalid antenna name: " ++ name))
  else applyIfRunning k { s with _antenna := name } dev

/-- Member `std::string getAntenna(const int, const size_t) const`. -/
def getAntenna (s : SoapyHarogic) : String := s._antenna

/-- Member `void setSampleRate(const int, const size_t, const double rate)`. -/
def setSampleRate (k : Consts) (s : SoapyHarogic) (rate : ℚ) (dev : ApplyAnswers) :
    SoapyHarogic × Raised :=
  applyIfRunning k { s with _sample_rate := rate } dev

/-- Member `void setFrequency(..., const double frequency, ...)`. -/
def setFrequency (k : Consts) (s : SoapyHarogic) (frequency : ℚ) (dev : ApplyAnswers) :
    SoapyHarogic × Raised :=
  applyIfRunning k { s with _center_freq := frequency } dev

/-- Member `void setGain(const int, const size_t, const std::string &name, const
double value)` (HarogicDevice.cpp:369-374); `static_cast<int>` drops the
fractional part. -/
def setGain (k : Consts) (s : SoapyHarogic) (name : String) (value : ℚ) (dev : ApplyAnswers) :
    SoapyHarogic × Raised :=
  let s :=
    if name = "REF" then
      { s with _ref_level := if 0 ≤ value then Rat.floor value else -Rat.floor (-value) }
    else if name = "PREAMP" then
      { s with _preamp_mode := if value > 1 / 2 then PreamplifierState_TypeDef.AutoOn
          else PreamplifierState_TypeDef.ForcedOff }
    else if name = "IF_AGC" then { s with _if_agc := decide (value > 1 / 2) }
    else s
  applyIfRunning k s dev

/-- Member `void writeSetting(const std::string &key, const std::string &value)`
(HarogicDevice.cpp:328-337). -/
def writeSetting (k : Consts) (s : SoapyHarogic) (key value : String) (dev : ApplyAnswers) :
    SoapyHarogic × Raised :=
  let s :=
    if key = "gain_strategy" then
      { s with _gain_strategy := if value = "Low Noise" then GainStrategy_TypeDef.LowNoisePreferred
          else GainStrategy_TypeDef.HighLinearityPreferred }
    else if key = "lo_mode" then
      { s with _lo_mode :=
          if value = "Speed" then LOOptimization_TypeDef.LOOpt_Speed
          else if value = "Spurs" then LOOptimization_TypeDef.LOOpt_Spur
          else if value = "Phase Noise" then LOOptimization_TypeDef.LOOpt_PhaseNoise
          else LOOptimization_TypeDef.LOOpt_Auto }
    else s
  applyIfRunning k s dev

/-! ### Reachable objects -/

/-- The part of the vendor contract of section 6 ("open-device-by-index →
handle|error") used for reachability: an open that does not fail stores a
handle, which is not the null pointer. -/
def OpensHandle (dev : ActivateAnswers) : Prop :=
  0 ≤ dev.Device_Open_ret → dev.Device_Open_handle ≠ nullptr

/-- The objects that a program can hold: the constructed object, and what the
worker iterations and the calls of the stream and control API make of it, for
any arguments and any vendor answers. A call that ends in `std::terminate`
leaves no object behind. -/
inductive SessionReachable (k : Consts) : SoapyHarogic → Prop
  | init (serial : String) (dev_index : Int) (native : ℚ) (profile : IQS_Profile_TypeDef) :
    SessionReachable k (init k serial dev_index native profile)
  | worker (s : SoapyHarogic) (p : Pull) :
    SessionReachable k s → SessionReachable k (workerStep k s p)
  | readStream (s : SoapyHarogic) (numElems : Nat) (flags : Int) :
    SessionReachable k s → SessionReachable k (readStream s numElems flags).self
  | activateStream (s : SoapyHarogic) (dev : ActivateAnswers) :
    SessionReachable k s → OpensHandle dev →
    (activateStream k s dev).2 ≠ Outcome.terminate →
    SessionReachable k (activateStream k s dev).1
  | deactivateStream (s : SoapyHarogic) :
    SessionReachable k s → SessionReachable k (deactivateStream s).1
  | setupStream (s : SoapyHarogic) (direction : Int) (format : String)
      (args : List (String × String)) :
    SessionReachable k s → SessionReachable k (setupStream k s direction format args).1
  | closeStream (s : SoapyHarogic) :
    SessionReachable k s → SessionReachable k (closeStream s)
  | setAntenna (s : SoapyHarogic) (name : String) (dev : ApplyAnswers) :
    SessionReachable k s → SessionReachable k (setAntenna k s name dev).1
  | setSampleRate (s : SoapyHarogic) (rate : ℚ) (dev : ApplyAnswers) :
    SessionReachable k s → SessionReachable k (setSampleRate k s rate dev).1
  | setFrequency (s : SoapyHarogic) (frequency : ℚ) (dev : ApplyAnswers) :
    SessionReachable k s → SessionReachable k (setFrequency k s frequency dev).1
  | setGain (s : SoapyHarogic) (name : String) (value : ℚ) (dev : ApplyAnswers) :
    SessionReachable k s → SessionReachable k (setGain k s name value dev).1
  | writeSetting (s : SoapyHarogic) (key value : String) (dev : ApplyAnswers) :
    SessionReachable k s → SessionReachable k (writeSetting k s key value dev).1

/-- The members that decide how activation and deactivation go, with the
open/closed state of the device. -/
def core (s : SoapyHarogic) : Bool × Bool × Nat × Bool :=
  (s._rx_thread_running, s._rx_worker_thread, s._dev_handle, handleOpen s.calls)

/-- Facts that hold of every reachable object: the selected antenna is a key of
`_rx_ports`; a running session has a worker thread; a null handle means no open
device; without a running flag and without a thread to join there is no handle. -/
def Consistent (s : SoapyHarogic) : Prop :=
  (s._rx_ports.lookup s._antenna).isSome = true ∧
  (s._rx_thread_running = true → s._rx_worker_thread = true) ∧
  (s._dev_handle = nullptr → handleOpen s.calls = false) ∧
  (s._rx_thread_running = false → s._rx_worker_thread = false → s._dev_handle = nullptr)

/-- The `DataFormat` of the profile passed to the most recent
`IQS_Configuration` call, that is, the sample width last written to the device. -/
def lastDataFormat (calls : List DeviceCall) : Option DataFormat_TypeDef :=
  calls.foldl (fun r c =>
    match c with
    | DeviceCall.IQS_Configuration ProfileIn _ => some ProfileIn.DataFormat
    | _ => r) none

/-! ### More sample values -/

/-- Vendor answers of a settings update that succeeds. -/
def sampleApply : ApplyAnswers :=
  { IQS_Configuration_ret := 0
    IQS_Configuration_ProfileOut := sampleProfile
    IQS_Configuration_PacketSamples := 4
    IQS_BusTriggerStart_ret := 0 }

/-- The object after the worker of a streaming session met a fatal pull error:
the flag is cleared, the thread is still joinable, the device still open. -/
def sampleSelfStopped : SoapyHarogic := workerStep sampleConsts sampleStreaming fatalPull

/-- A fresh object with the sample rate lowered to 1 MS/s, below `RESOLTRIG`. -/
def sampleStaged : SoapyHarogic := (setSampleRate sampleConsts sampleIdle 1000000 sampleApply).1

/-- Stream set up without arguments, then activated: 16-bit samples. -/
def sampleLive : SoapyHarogic :=
  (activateStream sampleConsts
    (setupStream sampleConsts sampleStaged SOAPY_SDR_RX SOAPY_SDR_CF32 []).1 sampleAnswers).1

/-- A second `setupStream`, now with `force_8bit=true`, on the streaming object. -/
def sampleForced : SoapyHarogic :=
  (setupStream sampleConsts sampleLive SOAPY_SDR_RX SOAPY_SDR_CF32 [("force_8bit", "true")]).1

/-- A pull that delivers two 8-bit I/Q pairs. -/
def dataPull : Pull :=
  { ret := 0, iqs := { PacketSamples := 2, AlternIQStream := some [127, -127, -128, 0] } }

/-- A streaming object whose ring buffer of capacity 8 holds seven samples. -/
def sampleNearlyFull : SoapyHarogic :=
  { sampleStreaming with
    _ring_buffer := (sampleStreaming._ring_buffer.write
      [(1, 0), (0, 1), (-1, 0), (0, -1), (1, 0), (0, 1), (-1, 0)]).2 }

end SoapyHarogic

/-! ## Arithmetic helpers -/

theorem szAdd_of_lt {a b : Nat} (h : a + b < SIZE_MOD) : szAdd a b = a + b := by
  unfold szAdd
  exact Nat.mod_eq_of_lt h

theorem szSub_of_le {a b : Nat} (h : b ≤ a) (ha : a < SIZE_MOD) : szSub a b = a - b := by
  unfold szSub SIZE_MOD at *
  omega

theorem mod_of_lt_two_mul {a c : Nat} (h : a < c + c) :
    a % c = if a < c then a else a - c := by
  split
  · exact Nat.mod_eq_of_lt (by assumption)
  · rw [Nat.mod_eq_sub_mod (by omega)]
    exact Nat.mod_eq_of_lt (by omega)

namespace RingBuffer

variable {T : Type} [Inhabited T]

/-! ## The loops of `read` and `write` on circular slots -/

theorem length_slots (buf : List T) (c rp n : Nat) : (slots buf c rp n).length = n := by
  simp [slots]

theorem slots_add (buf : List T) (c rp a b : Nat) :
    slots buf c rp (a + b) = slots buf c rp a ++ slots buf c ((rp + a) % c) b := by
  simp only [slots, List.range_add, List.map_append, List.map_map]
  congr 1
  apply List.map_congr_left
  intro i _
  simp only [Function.comp, Nat.mod_add_mod, Nat.add_assoc]

theorem readLoop_eq (buf : List T) (c : Nat) (hc : c < SIZE_MOD) :
    ∀ (n rp : Nat), rp < c →
      readLoop buf c n rp = (slots buf c rp n, (rp + n) % c) := by
  intro n
  induction n with
  | zero =>
    intro rp hrp
    simp [readLoop, slots, Nat.mod_eq_of_lt hrp]
  | succ n ih =>
    intro rp hrp
    have h1 : szAdd rp 1 = rp + 1 := szAdd_of_lt (by omega)
    have h2 : (rp + 1) % c < c := Nat.mod_lt _ (by omega)
    have h3 : slots buf c rp (n + 1) = buf.getD rp default :: slots buf c ((rp + 1) % c) n := by
      rw [Nat.add_comm n 1, slots_add]
      simp [slots, List.range_succ, Nat.mod_eq_of_lt hrp]
    simp only [readLoop, h1, ih _ h2, h3, Nat.mod_add_mod]
    congr 2
    omega

theorem slots_set_succ (buf : List T) (c rp n : Nat) (x : T) (hlen : buf.length = c)
    (hrp : rp < c) (hn : n < c) :
    slots (buf.set ((rp + n) % c) x) c rp (n + 1) = slots buf c rp n ++ [x] := by
  have hp : (rp + n) % c < c := Nat.mod_lt _ (by omega)
  simp only [slots, List.range_succ, List.map_append, List.map_cons, List.map_nil]
  congr 1
  · apply List.map_congr_left
    intro i hi
    have hi2 : i < n := List.mem_range.mp hi
    have hne : (rp + n) % c ≠ (rp + i) % c := by
      rw [mod_of_lt_two_mul (by omega : rp + n < c + c),
        mod_of_lt_two_mul (by omega : rp + i < c + c)]
      split <;> split <;> omega
    simp [List.getD_eq_getElem?_getD, List.getElem?_set_ne hne]
  · simp [List.getD_eq_getElem?_getD, List.getElem?_set, hlen, hp]

theorem writeLoop_spec (c : Nat) (hc : c < SIZE_MOD) (rp : Nat) (hrp : rp < c) :
    ∀ (data buf : List T) (n : Nat), buf.length = c → n + data.length ≤ c →
      (writeLoop c data (buf, (rp + n) % c)).2 = (rp + (n + data.length)) % c ∧
      (writeLoop c data (buf, (rp + n) % c)).1.length = c ∧
      slots (writeLoop c data (buf, (rp + n) % c)).1 c rp (n + data.length)
        = slots buf c rp n ++ data := by
  intro data
  induction data with
  | nil =>
    intro buf n hlen _
    simp [writeLoop, hlen]
  | cons x xs ih =>
    intro buf n hlen hn
    simp only [List.length_cons] at hn
    have hp : (rp + n) % c < c := Nat.mod_lt _ (by omega)
    have h1 : szAdd ((rp + n) % c) 1 % c = (rp + (n + 1)) % c := by
      rw [szAdd_of_lt (by omega), Nat.mod_add_mod, Nat.add_assoc]
    have ih2 := ih (buf.set ((rp + n) % c) x) (n + 1) (by simp [hlen]) (by omega)
    simp only [writeLoop, h1, List.length_cons]
    have e : n + (xs.length + 1) = n + 1 + xs.length := by omega
    rw [e]
    refine ⟨ih2.1, ih2.2.1, ?_⟩
    rw [ih2.2.2, slots_set_succ buf c rp n x hlen hrp (by omega)]
    simp

/-! ## Specification of the member functions on well-formed buffers -/

theorem WF_new (capacity : Nat) (h : capacity < SIZE_MOD) :
    WF (RingBuffer.new capacity : RingBuffer T) := by
  refine ⟨h, by simp [RingBuffer.new], by simp [RingBuffer.new], ?_, ?_⟩
  · simp only [RingBuffer.new]
    omega
  · simp [RingBuffer.new]

theorem stored_new (capacity : Nat) : stored (RingBuffer.new capacity : RingBuffer T) = [] := by
  simp [stored, slots, RingBuffer.new]

theorem WF_clear (rb : RingBuffer T) (h : WF rb) : WF rb.clear := by
  obtain ⟨h1, h2, _, _, _⟩ := h
  refine ⟨h1, h2, by simp [clear], ?_, ?_⟩
  · simp only [clear]
    omega
  · simp [clear]

theorem stored_clear (rb : RingBuffer T) : stored rb.clear = [] := by
  simp [stored, slots, clear]

theorem length_stored (rb : RingBuffer T) : (stored rb).length = rb._size := by
  simp [stored, length_slots]

theorem write_reject (rb : RingBuffer T) (h : WF rb) (data : List T)
    (hlen : ¬ data.length ≤ rb._capacity - rb._size) : rb.write data = (false, rb) := by
  obtain ⟨h1, _, h3, _, _⟩ := h
  have e : szSub rb._capacity rb._size = rb._capacity - rb._size := szSub_of_le h3 h1
  simp only [write, e]
  rw [if_pos (by omega)]

theorem write_accept (rb : RingBuffer T) (h : WF rb) (data : List T)
    (hlen : data.length ≤ rb._capacity - rb._size) :
    (rb.write data).1 = true ∧ WF (rb.write data).2 ∧
    (rb.write data).2._size = rb._size + data.length ∧
    (rb.write data).2._capacity = rb._capacity ∧
    (rb.write data).2._readPos = rb._readPos ∧
    stored (rb.write data).2 = stored rb ++ data := by
  obtain ⟨h1, h2, h3, h4, h5⟩ := h
  have e : szSub rb._capacity rb._size = rb._capacity - rb._size := szSub_of_le h3 h1
  have e2 : szAdd rb._size data.length = rb._size + data.length := szAdd_of_lt (by omega)
  have hw : rb.write data = (true, { rb with
      _buffer := (writeLoop rb._capacity data (rb._buffer, rb._writePos)).1,
      _writePos := (writeLoop rb._capacity data (rb._buffer, rb._writePos)).2,
      _size := rb._size + data.length }) := by
    simp only [write, e, e2]
    rw [if_neg (by omega)]
  rw [hw]
  rcases h4 with h4 | h4
  · have hd : data = [] := List.length_eq_zero.mp (by omega)
    subst hd
    have hs : rb._size = 0 := by omega
    simp only [writeLoop, List.length_nil, Nat.add_zero, List.append_nil, stored, WF]
    exact ⟨trivial, ⟨h1, h2, h3, Or.inl h4, h5⟩, trivial, trivial, trivial, trivial⟩
  · have sp := writeLoop_spec rb._capacity h1 rb._readPos h4 data rb._buffer rb._size h2
      (by omega)
    rw [← h5] at sp
    obtain ⟨s1, s2, s3⟩ := sp
    refine ⟨rfl, ⟨h1, s2, ?_, Or.inr h4, s1⟩, rfl, rfl, rfl, ?_⟩
    · show rb._size + data.length ≤ rb._capacity
      omega
    · exact s3

theorem read_of_min_eq_zero (rb : RingBuffer T) (len : Nat) (hm : min len rb._size = 0)
    (hs : rb._size < SIZE_MOD) : rb.read len = { ret := 0, data := [], rb := rb } := by
  have e : szSub rb._size 0 = rb._size := by
    rw [szSub_of_le (Nat.zero_le _) hs]
    rfl
  simp only [read, hm, readLoop, e]

theorem read_spec (rb : RingBuffer T) (h : WF rb) (len : Nat) :
    (rb.read len).ret = min len rb._size ∧
    (rb.read len).data = (stored rb).take (min len rb._size) ∧
    WF (rb.read len).rb ∧
    (rb.read len).rb._size = rb._size - min len rb._size ∧
    (rb.read len).rb._capacity = rb._capacity ∧
    (rb.read len).rb._buffer = rb._buffer ∧
    (rb.read len).rb._writePos = rb._writePos ∧
    stored (rb.read len).rb = (stored rb).drop (min len rb._size) := by
  obtain ⟨h1, h2, h3, h4, h5⟩ := h
  have hk : min len rb._size ≤ rb._size := Nat.min_le_right _ _
  have e : szSub rb._size (min len rb._size) = rb._size - min len rb._size :=
    szSub_of_le hk (by omega)
  rcases h4 with h4 | h4
  · have hs : rb._size = 0 := by omega
    have hm : min len rb._size = 0 := by omega
    rw [read_of_min_eq_zero rb len hm (by omega), hm]
    exact ⟨rfl, rfl, ⟨h1, h2, h3, Or.inl h4, h5⟩, rfl, rfl, rfl, rfl, rfl⟩
  · have hr := readLoop_eq rb._buffer rb._capacity h1 (min len rb._size) rb._readPos h4
    have hsplit : stored rb = slots rb._buffer rb._capacity rb._readPos (min len rb._size) ++
        slots rb._buffer rb._capacity ((rb._readPos + min len rb._size) % rb._capacity)
          (rb._size - min len rb._size) := by
      rw [← slots_add, stored]
      congr 1
      omega
    simp only [read, hr, e]
    refine ⟨trivial, ?_, ⟨h1, h2, ?_, Or.inr (Nat.mod_lt _ (by omega)), ?_⟩, trivial, trivial,
      trivial, trivial, ?_⟩
    · rw [hsplit, List.take_left' (length_slots _ _ _ _)]
    · show rb._size - min len rb._size ≤ rb._capacity
      omega
    · show rb._writePos = ((rb._readPos + min len rb._size) % rb._capacity +
        (rb._size - min len rb._size)) % rb._capacity
      rw [h5, Nat.mod_add_mod]
      congr 1
      omega
    · rw [hsplit, List.drop_left' (length_slots _ _ _ _)]
      rfl

theorem WF_write (rb : RingBuffer T) (h : WF rb) (data : List T) : WF (rb.write data).2 := by
  by_cases hlen : data.length ≤ rb._capacity - rb._size
  · exact (write_accept rb h data hlen).2.1
  · rw [write_reject rb h data hlen]
    exact h

theorem capacity_write (rb : RingBuffer T) (data : List T) :
    (rb.write data).2._capacity = rb._capacity := by
  simp only [write]
  split <;> rfl

theorem WF_of_reachable (rb : RingBuffer T) (h : Reachable rb) : WF rb := by
  induction h with
  | new capacity h => exact WF_new capacity h
  | write rb data _ ih => exact WF_write rb ih data
  | read rb len _ ih => exact (read_spec rb ih len).2.2.1
  | clear rb _ ih => exact WF_clear rb ih

theorem write_nil (rb : RingBuffer T) (h : WF rb) : rb.write [] = (true, rb) := by
  obtain ⟨h1, _, h3, _, _⟩ := h
  have e2 : szAdd rb._size 0 = rb._size := szAdd_of_lt (by omega)
  simp only [write, List.length_nil, writeLoop, e2]
  rw [if_neg (by omega)]

theorem reachable_exec (rb : RingBuffer T) (h : Reachable rb) (calls : List (Call T)) :
    Reachable (exec rb calls) := by
  induction calls generalizing rb with
  | nil => exact h
  | cons c cs ih =>
    cases c with
    | write data => exact ih _ (Reachable.write rb data h)
    | read len => exact ih _ (Reachable.read rb len h)
    | clear => exact ih _ (Reachable.clear rb h)

theorem capacity_exec (rb : RingBuffer T) (calls : List (Call T)) :
    (exec rb calls)._capacity = rb._capacity := by
  induction calls generalizing rb with
  | nil => rfl
  | cons c cs ih =>
    cases c with
    | write data => exact (ih _).trans (capacity_write rb data)
    | read len => exact ih _
    | clear => exact ih _

/-- Invariant of a run: the samples written so far are the samples read so far
followed by the samples still stored, and no write was rejected. -/
theorem runFrom_inv (ops : List (Op T)) :
    ∀ (acc : Trace T) (W : List T), WF acc.rb → W = acc.readOut ++ stored acc.rb →
      W.length + (written ops).length ≤ acc.rb._capacity →
      WF (runFrom acc ops).rb ∧
      W ++ written ops = (runFrom acc ops).readOut ++ stored (runFrom acc ops).rb ∧
      (runFrom acc ops).writeResults = acc.writeResults ++ List.replicate (numWrites ops) true := by
  induction ops with
  | nil =>
    intro acc W hwf hW _
    simp [runFrom, written, numWrites, hwf, hW]
  | cons op ops ih =>
    intro acc W hwf hW hlen
    cases op with
    | write data =>
      simp only [written, List.length_append] at hlen
      have hsz : W.length = acc.readOut.length + acc.rb._size := by
        rw [hW, List.length_append, length_stored]
      have hfit : data.length ≤ acc.rb._capacity - acc.rb._size := by omega
      obtain ⟨w1, w2, _, w4, _, w6⟩ := write_accept acc.rb hwf data hfit
      have := ih { acc with writeResults := acc.writeResults ++ [(acc.rb.write data).1],
                            rb := (acc.rb.write data).2 } (W ++ data) w2
        (by simp [w6, hW]) (by simp only [List.length_append, w4]; omega)
      simp only [runFrom, written, numWrites]
      refine ⟨this.1, ?_, ?_⟩
      · rw [← this.2.1, List.append_assoc]
      · rw [this.2.2, w1, List.replicate_succ, List.append_assoc]
        rfl
    | read len =>
      simp only [written] at hlen
      obtain ⟨_, r2, r3, _, r5, _, _, r8⟩ := read_spec acc.rb hwf len
      have := ih { acc with readOut := acc.readOut ++ (acc.rb.read len).data,
                            rb := (acc.rb.read len).rb } W r3
        (by simp [r2, r8, hW]) (by rw [r5]; exact hlen)
      simp only [runFrom, written, numWrites]
      exact this

/-! ## Claims on the ring buffer -/

/-- C1 (round trip): from an empty buffer of capacity `C`, for every interleaved
sequence of `write` and `read` calls whose total written sample count is at most
`C`, every `write` returns `true`, the concatenation of the samples returned by
the reads is a prefix of the concatenation of the samples written, and a final
read that drains the buffer completes it to the whole written sequence. -/
theorem ring_round_trip (C : Nat) (hC : C < SIZE_MOD) (ops : List (Op T))
    (hvol : (written ops).length ≤ C) :
    (run (RingBuffer.new C) ops).writeResults = List.replicate (numWrites ops) true ∧
    (run (RingBuffer.new C) ops).readOut <+: written ops ∧
    ∀ n, (run (RingBuffer.new C) ops).rb.size ≤ n →
      (run (RingBuffer.new C) ops).readOut ++ ((run (RingBuffer.new C) ops).rb.read n).data
        = written ops ∧
      ((run (RingBuffer.new C) ops).rb.read n).rb.size = 0 := by
  have inv := runFrom_inv ops
    { writeResults := [], readOut := [], rb := (RingBuffer.new C : RingBuffer T) } []
    (WF_new C hC) (by simp [stored_new]) (by simpa [RingBuffer.new] using hvol)
  simp only [List.nil_append] at inv
  unfold run
  generalize runFrom { writeResults := [], readOut := [], rb := (RingBuffer.new C : RingBuffer T) } ops = r at inv ⊢
  obtain ⟨i1, i2, i3⟩ := inv
  refine ⟨i3, ?_, ?_⟩
  · rw [i2]
    exact List.prefix_append _ _
  · intro n hn
    obtain ⟨_, r2, _, r4, _⟩ := read_spec _ i1 n
    have hmin : min n r.rb._size = r.rb._size := Nat.min_eq_right hn
    constructor
    · rw [r2, hmin, i2, ← length_stored, List.take_length]
    · rw [size, r4, hmin, Nat.sub_self]

/-- The round trip at capacity 4, with both cursors wrapping to slot 0. -/
theorem ring_round_trip_witness :
    (4 < SIZE_MOD ∧ (written scenarioWrap).length ≤ 4) ∧
    (run (RingBuffer.new 4) scenarioWrap).readOut = [1, 2, 3, 4] ∧
    (run (RingBuffer.new 4) scenarioWrap).rb._readPos = 0 ∧
    (run (RingBuffer.new 4) scenarioWrap).rb._writePos = 0 ∧
    ((run (RingBuffer.new 4) scenarioWrap).writeResults = List.replicate (numWrites scenarioWrap) true ∧
    (run (RingBuffer.new 4) scenarioWrap).readOut <+: written scenarioWrap ∧
    ∀ n, (run (RingBuffer.new 4) scenarioWrap).rb.size ≤ n →
      (run (RingBuffer.new 4) scenarioWrap).readOut ++
        ((run (RingBuffer.new 4) scenarioWrap).rb.read n).data = written scenarioWrap ∧
      ((run (RingBuffer.new 4) scenarioWrap).rb.read n).rb.size = 0) :=
  ⟨⟨by decide, by decide⟩, by decide, by decide, by decide,
    ring_round_trip 4 (by decide) scenarioWrap (by decide)⟩

/-- C2 (all-or-nothing write): in every state of the buffer and for every input
of length `L`, `write` returns `true` exactly when `L ≤ capacity - size`; on
`true` the size grows by `L` and the samples are appended after the stored ones;
on `false` the buffer is unchanged; a write of length 0 always succeeds and
changes nothing. -/
theorem write_all_or_nothing (rb : RingBuffer T) (h : Reachable rb) (data : List T) :
    ((rb.write data).1 = true ↔ data.length ≤ rb.capacity - rb.size) ∧
    ((rb.write data).1 = true →
      (rb.write data).2.size = rb.size + data.length ∧
      stored (rb.write data).2 = stored rb ++ data) ∧
    ((rb.write data).1 = false → (rb.write data).2 = rb) ∧
    rb.write [] = (true, rb) := by
  have hwf := WF_of_reachable rb h
  by_cases hlen : data.length ≤ rb._capacity - rb._size
  · obtain ⟨w1, _, w3, _, _, w6⟩ := write_accept rb hwf data hlen
    exact ⟨⟨fun _ => hlen, fun _ => w1⟩, fun _ => ⟨w3, w6⟩,
      fun hf => absurd (w1.symm.trans hf) (by decide), write_nil rb hwf⟩
  · have hr := write_reject rb hwf data hlen
    refine ⟨⟨fun ht => ?_, fun hl => absurd hl hlen⟩, fun ht => ?_, fun _ => ?_, write_nil rb hwf⟩
    · rw [hr] at ht
      cases ht
    · rw [hr] at ht
      cases ht
    · rw [hr]

/-- On a full buffer of capacity 3 whose contents straddle the end of the
storage, a write of one sample is rejected and a write of none succeeds. -/
theorem write_all_or_nothing_witness :
    Reachable scenarioFull ∧ scenarioFull.size = 3 ∧ stored scenarioFull = [3, 4, 5] ∧
    (scenarioFull.write [6]).1 = false ∧
    (((scenarioFull.write [6]).1 = true ↔ [6].length ≤ scenarioFull.capacity - scenarioFull.size) ∧
    ((scenarioFull.write [6]).1 = true →
      (scenarioFull.write [6]).2.size = scenarioFull.size + [6].length ∧
      stored (scenarioFull.write [6]).2 = stored scenarioFull ++ [6]) ∧
    ((scenarioFull.write [6]).1 = false → (scenarioFull.write [6]).2 = scenarioFull) ∧
    scenarioFull.write [] = (true, scenarioFull)) :=
  ⟨reachable_exec _ (Reachable.new 3 (by decide)) _, by decide, by decide, by decide,
    write_all_or_nothing scenarioFull (reachable_exec _ (Reachable.new 3 (by decide)) _) [6]⟩

/-- C3 (size invariant): after any sequence of `write`, `read` and `clear` calls
on a freshly constructed buffer of capacity `C`, `0 ≤ size() ≤ capacity()` and
`capacity()` is still `C`. -/
theorem size_le_capacity (C : Nat) (hC : C < SIZE_MOD) (calls : List (Call T)) :
    0 ≤ (exec (RingBuffer.new C) calls).size ∧
    (exec (RingBuffer.new C) calls).size ≤ (exec (RingBuffer.new C) calls).capacity ∧
    (exec (RingBuffer.new C) calls).capacity = C := by
  have hwf := WF_of_reachable _ (reachable_exec _ (Reachable.new C hC) calls)
  refine ⟨Nat.zero_le _, hwf.2.2.1, ?_⟩
  rw [capacity, capacity_exec]
  rfl

/-- The size invariant after an overfull write, a read and a clear at capacity 2. -/
theorem size_le_capacity_witness :
    2 < SIZE_MOD ∧
    (0 ≤ (exec (RingBuffer.new 2) [Call.write [7, 8, 9], Call.write [7], Call.read 5,
        Call.clear, Call.write [1, 2]] : RingBuffer Nat).size ∧
    (exec (RingBuffer.new 2) [Call.write [7, 8, 9], Call.write [7], Call.read 5,
        Call.clear, Call.write [1, 2]] : RingBuffer Nat).size ≤
      (exec (RingBuffer.new 2) [Call.write [7, 8, 9], Call.write [7], Call.read 5,
        Call.clear, Call.write [1, 2]] : RingBuffer Nat).capacity ∧
    (exec (RingBuffer.new 2) [Call.write [7, 8, 9], Call.write [7], Call.read 5,
        Call.clear, Call.write [1, 2]] : RingBuffer Nat).capacity = 2) :=
  ⟨by decide, size_le_capacity 2 (by decide) _⟩

/-- C4 (FIFO read): `read(out, maxCount)` returns `min(maxCount, size)`, copies
that many of the oldest stored samples to `out` in the order they were written,
and leaves the remaining samples stored in their order; on an empty buffer it
returns 0 and changes nothing. -/
theorem read_fifo (rb : RingBuffer T) (h : Reachable rb) (maxCount : Nat) :
    (rb.read maxCount).ret = min maxCount rb.size ∧
    (rb.read maxCount).data = (stored rb).take (min maxCount rb.size) ∧
    stored (rb.read maxCount).rb = (stored rb).drop (min maxCount rb.size) ∧
    (rb.read maxCount).rb.size = rb.size - min maxCount rb.size ∧
    (rb.size = 0 → rb.read maxCount = { ret := 0, data := [], rb := rb }) := by
  have hwf := WF_of_reachable rb h
  obtain ⟨r1, r2, _, r4, _, _, _, r8⟩ := read_spec rb hwf maxCount
  refine ⟨r1, r2, r8, r4, fun h0 => ?_⟩
  have h0' : rb._size = 0 := h0
  exact read_of_min_eq_zero rb maxCount (by omega) (by unfold SIZE_MOD; omega)

/-- Capacity 8, five samples written, three requested: the read returns the
first three written and two remain. -/
theorem read_fifo_witness :
    Reachable scenarioFive ∧ stored scenarioFive = [11, 12, 13, 14, 15] ∧
    (scenarioFive.read 3).ret = 3 ∧ (scenarioFive.read 3).data = [11, 12, 13] ∧
    (scenarioFive.read 3).rb.size = 2 ∧ stored (scenarioFive.read 3).rb = [14, 15] ∧
    ((scenarioFive.read 3).ret = min 3 scenarioFive.size ∧
    (scenarioFive.read 3).data = (stored scenarioFive).take (min 3 scenarioFive.size) ∧
    stored (scenarioFive.read 3).rb = (stored scenarioFive).drop (min 3 scenarioFive.size) ∧
    (scenarioFive.read 3).rb.size = scenarioFive.size - min 3 scenarioFive.size ∧
    (scenarioFive.size = 0 →
      scenarioFive.read 3 = { ret := 0, data := [], rb := scenarioFive })) :=
  ⟨Reachable.write _ _ (Reachable.new 8 (by decide)), by decide, by decide, by decide,
    by decide, by decide,
    read_fifo scenarioFive (Reachable.write _ _ (Reachable.new 8 (by decide))) 3⟩

end RingBuffer

namespace SoapyHarogic

/-! ## The three ways `readStream` can go -/

theorem toInt_of_le {n : Nat} (h : n ≤ INT_MAX) : toInt n = (n : Int) := by
  unfold toInt
  unfold INT_MAX at h
  have e : n % 4294967296 = n := Nat.mod_eq_of_lt (by omega)
  rw [e, if_pos (by omega)]

theorem readStream_of_timeout (s : SoapyHarogic) (numElems : Nat) (flags : Int)
    (hrun : s._rx_thread_running = true) (hshort : s._ring_buffer.size < numElems) :
    readStream s numElems flags =
      { ret := SOAPY_SDR_TIMEOUT, buffs0 := [], flags := flags, self := s } := by
  have hp : waitPred s numElems = false := by
    simp only [waitPred, hrun]
    simpa using hshort
  simp [readStream, hp]

theorem readStream_of_stopped (s : SoapyHarogic) (numElems : Nat) (flags : Int)
    (hrun : s._rx_thread_running = false) (hshort : s._ring_buffer.size < numElems) :
    readStream s numElems flags =
      { ret := SOAPY_SDR_STREAM_ERROR, buffs0 := [], flags := flags, self := s } := by
  have hp : waitPred s numElems = true := by
    simp [waitPred, hrun]
  simp [readStream, hp, hrun, hshort]

theorem readStream_of_enough (s : SoapyHarogic) (numElems : Nat) (flags : Int)
    (henough : numElems ≤ s._ring_buffer.size) :
    readStream s numElems flags =
      { ret := toInt (s._ring_buffer.read numElems).ret
        buffs0 := (s._ring_buffer.read numElems).data
        flags := if s._overflow_flag then SOAPY_SDR_END_BURST else 0
        self := { s with _overflow_flag := false
                         _ring_buffer := (s._ring_buffer.read numElems).rb } } := by
  have hp : waitPred s numElems = true := by
    simp only [waitPred]
    simp [henough]
  have hn : ¬ s._ring_buffer.size < numElems := by omega
  cases ho : s._overflow_flag
  · simp [readStream, hp, hn, ho]
  · simp [readStream, hp, hn, ho]
    decide

theorem timeout_neg : ¬ (0 : Int) ≤ SOAPY_SDR_TIMEOUT := by decide

theorem stream_error_neg : ¬ (0 : Int) ≤ SOAPY_SDR_STREAM_ERROR := by decide

theorem ringFits_size_le (s : SoapyHarogic) (h : RingFits s) :
    s._ring_buffer._size ≤ INT_MAX :=
  Nat.le_trans (RingBuffer.WF_of_reachable _ h.1).2.2.1 h.2

theorem readStream_enough_spec (s : SoapyHarogic) (hring : RingFits s) (numElems : Nat)
    (flags : Int) (henough : numElems ≤ s._ring_buffer.size) :
    (readStream s numElems flags).ret = (numElems : Int) ∧
    (readStream s numElems flags).buffs0 = (RingBuffer.stored s._ring_buffer).take numElems ∧
    (readStream s numElems flags).buffs0.length = numElems ∧
    (readStream s numElems flags).self._ring_buffer.size + numElems = s._ring_buffer.size ∧
    RingBuffer.stored (readStream s numElems flags).self._ring_buffer
      = (RingBuffer.stored s._ring_buffer).drop numElems := by
  have hwf := RingBuffer.WF_of_reachable _ hring.1
  have hsz := ringFits_size_le s hring
  have henough' : numElems ≤ s._ring_buffer._size := henough
  have hmin : min numElems s._ring_buffer._size = numElems := Nat.min_eq_left henough'
  obtain ⟨r1, r2, _, r4, _, _, _, r8⟩ := RingBuffer.read_spec s._ring_buffer hwf numElems
  rw [hmin] at r1 r2 r4 r8
  rw [readStream_of_enough s numElems flags henough]
  refine ⟨?_, r2, ?_, ?_, r8⟩
  · show toInt (s._ring_buffer.read numElems).ret = (numElems : Int)
    rw [r1]
    exact toInt_of_le (by omega)
  · show (s._ring_buffer.read numElems).data.length = numElems
    rw [r2, List.length_take, RingBuffer.length_stored]
    exact hmin
  · show (s._ring_buffer.read numElems).rb._size + numElems = s._ring_buffer._size
    rw [r4]
    omega

/-! ## Claims on `readStream` -/

/-- C5 (no partial read): whatever the object is when the wait ends and whatever
count is requested, a non-negative return value of `readStream` equals the
requested count, exactly that many oldest buffered samples were copied, and the
ring buffer size dropped by that count; any other return value is
`SOAPY_SDR_TIMEOUT` or `SOAPY_SDR_STREAM_ERROR`, both negative. -/
theorem readStream_never_partial (s : SoapyHarogic) (hring : RingFits s) (numElems : Nat)
    (flags : Int) :
    (0 ≤ (readStream s numElems flags).ret →
      (readStream s numElems flags).ret = (numElems : Int) ∧
      (readStream s numElems flags).buffs0 = (RingBuffer.stored s._ring_buffer).take numElems ∧
      (readStream s numElems flags).buffs0.length = numElems ∧
      (readStream s numElems flags).self._ring_buffer.size + numElems = s._ring_buffer.size ∧
      RingBuffer.stored (readStream s numElems flags).self._ring_buffer
        = (RingBuffer.stored s._ring_buffer).drop numElems) ∧
    ((readStream s numElems flags).ret < 0 →
      (readStream s numElems flags).ret = SOAPY_SDR_TIMEOUT ∨
      (readStream s numElems flags).ret = SOAPY_SDR_STREAM_ERROR) ∧
    SOAPY_SDR_TIMEOUT < 0 ∧ SOAPY_SDR_STREAM_ERROR < 0 := by
  refine ⟨?_, ?_, by decide, by decide⟩
  · intro hret
    by_cases henough : numElems ≤ s._ring_buffer.size
    · exact readStream_enough_spec s hring numElems flags henough
    · exfalso
      cases hrun : s._rx_thread_running
      · rw [readStream_of_stopped s numElems flags hrun (by omega)] at hret
        exact stream_error_neg hret
      · rw [readStream_of_timeout s numElems flags hrun (by omega)] at hret
        exact timeout_neg hret
  · intro hret
    by_cases henough : numElems ≤ s._ring_buffer.size
    · rw [(readStream_enough_spec s hring numElems flags henough).1] at hret
      omega
    · cases hrun : s._rx_thread_running
      · rw [readStream_of_stopped s numElems flags hrun (by omega)]
        exact Or.inr rfl
      · rw [readStream_of_timeout s numElems flags hrun (by omega)]
        exact Or.inl rfl

theorem ringFits_sampleBuffered : RingFits sampleBuffered :=
  ⟨RingBuffer.Reachable.write _ _ (RingBuffer.Reachable.new 8 (by decide)), by decide⟩

/-- Three of four buffered samples requested from a streaming object: the call
returns 3 with the three oldest samples and leaves one. -/
theorem readStream_never_partial_witness :
    RingFits sampleBuffered ∧
    (readStream sampleBuffered 3 0).ret = 3 ∧
    (readStream sampleBuffered 3 0).buffs0 = [(1, 0), (0, 1), (-1, 0)] ∧
    (readStream sampleBuffered 3 0).self._ring_buffer.size = 1 ∧
    (readStream sampleBuffered 5 0).ret = SOAPY_SDR_TIMEOUT ∧
    ((0 ≤ (readStream sampleBuffered 3 0).ret →
      (readStream sampleBuffered 3 0).ret = ((3 : Nat) : Int) ∧
      (readStream sampleBuffered 3 0).buffs0
        = (RingBuffer.stored sampleBuffered._ring_buffer).take 3 ∧
      (readStream sampleBuffered 3 0).buffs0.length = 3 ∧
      (readStream sampleBuffered 3 0).self._ring_buffer.size + 3
        = sampleBuffered._ring_buffer.size ∧
      RingBuffer.stored (readStream sampleBuffered 3 0).self._ring_buffer
        = (RingBuffer.stored sampleBuffered._ring_buffer).drop 3) ∧
    ((readStream sampleBuffered 3 0).ret < 0 →
      (readStream sampleBuffered 3 0).ret = SOAPY_SDR_TIMEOUT ∨
      (readStream sampleBuffered 3 0).ret = SOAPY_SDR_STREAM_ERROR) ∧
    SOAPY_SDR_TIMEOUT < 0 ∧ SOAPY_SDR_STREAM_ERROR < 0) :=
  ⟨ringFits_sampleBuffered, by decide, by decide, by decide, by decide,
    readStream_never_partial sampleBuffered ringFits_sampleBuffered 3 0⟩

/-- C7 (timeout without effect): when the session is still running and fewer
samples than requested are buffered, the wait can only end by timeout, and
`readStream` then returns `SOAPY_SDR_TIMEOUT`, copies no sample and leaves the
object (ring buffer, overflow signal, running flag) and the caller's `flags`
as they were. -/
theorem readStream_timeout_no_effect (s : SoapyHarogic) (numElems : Nat) (flags : Int)
    (hrun : s._rx_thread_running = true) (hshort : s._ring_buffer.size < numElems) :
    waitPred s numElems = false ∧
    (readStream s numElems flags).ret = SOAPY_SDR_TIMEOUT ∧
    (readStream s numElems flags).buffs0 = [] ∧
    (readStream s numElems flags).flags = flags ∧
    (readStream s numElems flags).self = s := by
  rw [readStream_of_timeout s numElems flags hrun hshort]
  refine ⟨?_, rfl, rfl, rfl, rfl⟩
  simp only [waitPred, hrun]
  simpa using hshort

/-- Ten samples requested from an empty running buffer, no producer activity. -/
theorem readStream_timeout_no_effect_witness :
    (sampleStreaming._rx_thread_running = true ∧ sampleStreaming._ring_buffer.size = 0) ∧
    (waitPred sampleStreaming 10 = false ∧
    (readStream sampleStreaming 10 7).ret = SOAPY_SDR_TIMEOUT ∧
    (readStream sampleStreaming 10 7).buffs0 = [] ∧
    (readStream sampleStreaming 10 7).flags = 7 ∧
    (readStream sampleStreaming 10 7).self = sampleStreaming) :=
  ⟨⟨by decide, by decide⟩,
    readStream_timeout_no_effect sampleStreaming 10 7 (by decide) (by decide)⟩

/-- C8 (stopped stream drains, then fails): with the running flag false,
`readStream(n)` succeeds exactly when the ring buffer holds at least `n`
samples and then delivers the `n` oldest; otherwise it returns
`SOAPY_SDR_STREAM_ERROR` and consumes nothing. Once a read has taken all that
was buffered, every later request for a positive count returns the error and
leaves the object as it is. -/
theorem readStream_stopped (s : SoapyHarogic) (hring : RingFits s)
    (hstop : s._rx_thread_running = false) (numElems : Nat) (flags : Int) :
    (0 ≤ (readStream s numElems flags).ret ↔ numElems ≤ s._ring_buffer.size) ∧
    (numElems ≤ s._ring_buffer.size →
      (readStream s numElems flags).ret = (numElems : Int) ∧
      (readStream s numElems flags).buffs0 = (RingBuffer.stored s._ring_buffer).take numElems ∧
      (readStream s numElems flags).buffs0.length = numElems ∧
      (readStream s numElems flags).self._ring_buffer.size + numElems = s._ring_buffer.size) ∧
    (s._ring_buffer.size < numElems →
      readStream s numElems flags =
        { ret := SOAPY_SDR_STREAM_ERROR, buffs0 := [], flags := flags, self := s }) ∧
    (numElems = s._ring_buffer.size → ∀ (m : Nat) (flags2 : Int), 0 < m →
      readStream (readStream s numElems flags).self m flags2 =
        { ret := SOAPY_SDR_STREAM_ERROR, buffs0 := [], flags := flags2,
          self := (readStream s numElems flags).self }) := by
  refine ⟨⟨fun hret => ?_, fun h => ?_⟩, fun h => ?_, fun h => ?_, fun h m flags2 hm => ?_⟩
  · by_contra hlt
    rw [readStream_of_stopped s numElems flags hstop (by omega)] at hret
    exact stream_error_neg hret
  · rw [(readStream_enough_spec s hring numElems flags h).1]
    omega
  · obtain ⟨a, b, c, d, _⟩ := readStream_enough_spec s hring numElems flags h
    exact ⟨a, b, c, d⟩
  · exact readStream_of_stopped s numElems flags hstop h
  · have hsz := (readStream_enough_spec s hring numElems flags (by omega)).2.2.2.1
    apply readStream_of_stopped
    · rw [readStream_of_enough s numElems flags (by omega)]
      exact hstop
    · omega

theorem ringFits_sampleStopped : RingFits sampleStopped :=
  ⟨RingBuffer.Reachable.write _ _ (RingBuffer.Reachable.new 8 (by decide)), by decide⟩

/-- A fatal pull error with four samples buffered: a request for four succeeds
with those four samples, and the following requests for one and for four
samples return the stream error. -/
theorem readStream_stopped_witness :
    (RingFits sampleStopped ∧ sampleStopped._rx_thread_running = false) ∧
    sampleBuffered._rx_thread_running = true ∧
    sampleStopped._ring_buffer.size = 4 ∧
    (readStream sampleStopped 4 0).ret = 4 ∧
    (readStream sampleStopped 4 0).buffs0 = [(1, 0), (0, 1), (-1, 0), (0, -1)] ∧
    (readStream (readStream sampleStopped 4 0).self 1 0).ret = SOAPY_SDR_STREAM_ERROR ∧
    (readStream (readStream (readStream sampleStopped 4 0).self 1 0).self 4 0).ret
      = SOAPY_SDR_STREAM_ERROR ∧
    ((0 ≤ (readStream sampleStopped 4 0).ret ↔ 4 ≤ sampleStopped._ring_buffer.size) ∧
    (4 ≤ sampleStopped._ring_buffer.size →
      (readStream sampleStopped 4 0).ret = ((4 : Nat) : Int) ∧
      (readStream sampleStopped 4 0).buffs0
        = (RingBuffer.stored sampleStopped._ring_buffer).take 4 ∧
      (readStream sampleStopped 4 0).buffs0.length = 4 ∧
      (readStream sampleStopped 4 0).self._ring_buffer.size + 4
        = sampleStopped._ring_buffer.size) ∧
    (sampleStopped._ring_buffer.size < 4 →
      readStream sampleStopped 4 0 =
        { ret := SOAPY_SDR_STREAM_ERROR, buffs0 := [], flags := 0, self := sampleStopped }) ∧
    (4 = sampleStopped._ring_buffer.size → ∀ (m : Nat) (flags2 : Int), 0 < m →
      readStream (readStream sampleStopped 4 0).self m flags2 =
        { ret := SOAPY_SDR_STREAM_ERROR, buffs0 := [], flags := flags2,
          self := (readStream sampleStopped 4 0).self })) :=
  ⟨⟨ringFits_sampleStopped, by decide⟩, by decide, by decide, by decide, by decide, by decide,
    by decide, readStream_stopped sampleStopped ringFits_sampleStopped (by decide) 4 0⟩

/-! ## Frame lemmas for the stream state machine and the worker -/

theorem handleOpen_append (calls more : List DeviceCall) :
    handleOpen (calls ++ more) = more.foldl handleStep (handleOpen calls) := by
  simp only [handleOpen, List.foldl_append]

theorem activateConfigured_frame (s : SoapyHarogic) (dev : ActivateAnswers) :
    (activateConfigured s dev).1._overflow_flag = s._overflow_flag ∧
    (activateConfigured s dev).1._ring_buffer = s._ring_buffer := by
  simp only [activateConfigured, IQS_Configuration, IQS_BusTriggerStart, Device_Close]
  split_ifs <;> exact ⟨rfl, rfl⟩

theorem activateStream_frame (k : Consts) (s : SoapyHarogic) (dev : ActivateAnswers) :
    (activateStream k s dev).1._overflow_flag = s._overflow_flag ∧
    (activateStream k s dev).1._ring_buffer = s._ring_buffer := by
  simp only [activateStream]
  split_ifs
  · exact ⟨rfl, rfl⟩
  · exact ⟨rfl, rfl⟩
  · split
    · exact ⟨rfl, rfl⟩
    · exact activateConfigured_frame _ dev

theorem deactivateStream_frame (s : SoapyHarogic) :
    (deactivateStream s).1._overflow_flag = s._overflow_flag ∧
    (deactivateStream s).1._ring_buffer = s._ring_buffer := by
  simp only [deactivateStream, IQS_BusTriggerStop, Device_Close]
  split_ifs <;> exact ⟨rfl, rfl⟩

theorem rxIteration_ring (k : Consts) (s : SoapyHarogic) (p : Pull) :
    (rxIteration k s p).1._ring_buffer = s._ring_buffer ∨
    ∃ data, (rxIteration k s p).1._ring_buffer = (s._ring_buffer.write data).2 := by
  by_cases h1 : p.ret < 0
  · refine Or.inl ?_
    simp only [rxIteration, h1, if_true]
    split_ifs <;> rfl
  · cases h2 : p.iqs.AlternIQStream with
    | none =>
      refine Or.inl ?_
      simp only [rxIteration, h1, h2, if_false]
    | some inp =>
      by_cases h3 : p.iqs.PacketSamples = 0
      · refine Or.inl ?_
        simp only [rxIteration, h1, h2, h3, if_false, if_true]
      · refine Or.inr ⟨convert s._samps_int8 inp p.iqs.PacketSamples, ?_⟩
        simp only [rxIteration, h1, h2, h3, if_false]

theorem rxIteration_overflow_flag (k : Consts) (s : SoapyHarogic) (p : Pull) :
    (rxIteration k s p).1._overflow_flag =
      (if p.ret < 0 ∧ p.ret ≠ k.APIRETVAL_WARNING_BusTimeOut ∧
          p.ret = k.APIRETVAL_WARNING_IFOverflow then true else s._overflow_flag) := by
  simp only [rxIteration]
  by_cases h1 : p.ret < 0
  · rw [if_pos h1]
    by_cases h2 : p.ret = k.APIRETVAL_WARNING_BusTimeOut
    · rw [if_pos h2, if_neg (fun hc => hc.2.1 h2)]
    · rw [if_neg h2]
      by_cases h3 : p.ret = k.APIRETVAL_WARNING_IFOverflow
      · rw [if_pos h3, if_pos ⟨h1, h2, h3⟩]
      · rw [if_neg h3, if_neg (fun hc => h3 hc.2.2)]
  · rw [if_neg h1, if_neg (fun hc => h1 hc.1)]
    cases p.iqs.AlternIQStream with
    | none => rfl
    | some inp =>
      simp only []
      split_ifs <;> rfl

theorem workerStep_ringFits (k : Consts) (s : SoapyHarogic) (p : Pull) (h : RingFits s) :
    RingFits (workerStep k s p) := by
  unfold workerStep
  split_ifs
  · rcases rxIteration_ring k s p with e | ⟨data, e⟩
    · rw [RingFits, e]
      exact h
    · rw [RingFits, e]
      refine ⟨RingBuffer.Reachable.write _ data h.1, ?_⟩
      rw [RingBuffer.capacity, RingBuffer.capacity_write]
      exact h.2
  · exact h

theorem readStream_ringFits (s : SoapyHarogic) (numElems : Nat) (flags : Int)
    (h : RingFits s) : RingFits (readStream s numElems flags).self := by
  by_cases henough : numElems ≤ s._ring_buffer.size
  · rw [readStream_of_enough s numElems flags henough]
    refine ⟨RingBuffer.Reachable.read _ numElems h.1, ?_⟩
    exact h.2
  · cases hrun : s._rx_thread_running
    · rw [readStream_of_stopped s numElems flags hrun (by omega)]
      exact h
    · rw [readStream_of_timeout s numElems flags hrun (by omega)]
      exact h

theorem deactivateStream_of_flags (s : SoapyHarogic) (h1 : s._rx_thread_running = false)
    (h2 : s._rx_worker_thread = false) : deactivateStream s = (s, 0) := by
  simp [deactivateStream, h1, h2]

theorem deactivateStream_flags (s : SoapyHarogic) :
    (deactivateStream s).1._rx_thread_running = false ∧
    (deactivateStream s).1._rx_worker_thread = false := by
  cases h1 : s._rx_thread_running <;> cases h2 : s._rx_worker_thread <;>
    by_cases h3 : s._dev_handle = nullptr <;>
    simp [deactivateStream, IQS_BusTriggerStop, Device_Close, h1, h2, h3]

/-! ## Claims on the discontinuity signal and on the stream state machine -/

/-- C6 (discontinuity delivered once): along every sequence of worker
iterations and stream API calls, the flags reported by `readStream` follow the
rule `deliveredOnce`: after the worker has recorded a device IF overflow, the
first `readStream` that returns successfully reports `SOAPY_SDR_END_BURST` and
clears the signal, the later successful ones report 0 until the worker records
another overflow, and a `readStream` that returns a negative code neither
reports nor clears anything. -/
theorem discontinuity_delivered_once (k : Consts)
    (hneg : k.APIRETVAL_WARNING_IFOverflow < 0)
    (hne : k.APIRETVAL_WARNING_IFOverflow ≠ k.APIRETVAL_WARNING_BusTimeOut)
    (es : List Event) (s : SoapyHarogic) (hring : RingFits s) :
    deliveredOnce s._overflow_flag (observe k s es) := by
  induction es generalizing s with
  | nil => exact trivial
  | cons e es ih =>
    cases e with
    | pull p =>
      have ih2 := ih (workerStep k s p) (workerStep_ringFits k s p hring)
      by_cases hov : s._rx_thread_running = true ∧ p.ret = k.APIRETVAL_WARNING_IFOverflow
      · have hflag : (workerStep k s p)._overflow_flag = true := by
          rw [workerStep, if_pos hov.1, rxIteration_overflow_flag, if_pos]
          exact ⟨hov.2 ▸ hneg, hov.2 ▸ hne, hov.2⟩
        rw [hflag] at ih2
        simp only [observe, if_pos hov, deliveredOnce]
        exact ih2
      · have hflag : (workerStep k s p)._overflow_flag = s._overflow_flag := by
          unfold workerStep
          split_ifs with hrun
          · rw [rxIteration_overflow_flag, if_neg]
            intro hc
            exact hov ⟨hrun, hc.2.2⟩
          · rfl
        rw [hflag] at ih2
        simp only [observe, if_neg hov, deliveredOnce]
        exact ih2
    | readStream numElems flags =>
      have ih2 := ih (readStream s numElems flags).self (readStream_ringFits s numElems flags hring)
      by_cases henough : numElems ≤ s._ring_buffer.size
      · have hret : 0 ≤ (readStream s numElems flags).ret := by
          rw [(readStream_enough_spec s hring numElems flags henough).1]
          omega
        simp only [observe, if_pos hret, deliveredOnce]
        rw [readStream_of_enough s numElems flags henough] at ih2 ⊢
        exact ⟨rfl, ih2⟩
      · have hfail : (readStream s numElems flags).flags = flags ∧
            (readStream s numElems flags).self = s ∧ ¬ 0 ≤ (readStream s numElems flags).ret := by
          cases hrun : s._rx_thread_running
          · rw [readStream_of_stopped s numElems flags hrun (by omega)]
            exact ⟨rfl, rfl, stream_error_neg⟩
          · rw [readStream_of_timeout s numElems flags hrun (by omega)]
            exact ⟨rfl, rfl, timeout_neg⟩
        rw [hfail.2.1] at ih2
        simp only [observe, if_neg hfail.2.2, deliveredOnce, hfail.2.1]
        exact ⟨hfail.1, ih2⟩
    | activateStream dev =>
      simp only [observe]
      split_ifs
      · exact trivial
      · have ih2 := ih (activateStream k s dev).1
          (by rw [RingFits, (activateStream_frame k s dev).2]; exact hring)
        rw [(activateStream_frame k s dev).1] at ih2
        exact ih2
    | deactivateStream =>
      have ih2 := ih (deactivateStream s).1
        (by rw [RingFits, (deactivateStream_frame s).2]; exact hring)
      rw [(deactivateStream_frame s).1] at ih2
      exact ih2

/-- An overflow is reported by the first successful read after it and by no
other read. -/
theorem discontinuity_delivered_once_witness :
    (sampleConsts.APIRETVAL_WARNING_IFOverflow < 0 ∧
      sampleConsts.APIRETVAL_WARNING_IFOverflow ≠ sampleConsts.APIRETVAL_WARNING_BusTimeOut ∧
      RingFits sampleBuffered) ∧
    sampleBuffered._overflow_flag = false ∧
    observe sampleConsts sampleBuffered sampleEvents =
      [Obs.overflow, Obs.readFailed 5 5, Obs.readOk SOAPY_SDR_END_BURST, Obs.readOk 0,
       Obs.overflow, Obs.readOk SOAPY_SDR_END_BURST] ∧
    deliveredOnce sampleBuffered._overflow_flag (observe sampleConsts sampleBuffered sampleEvents) :=
  ⟨⟨by decide, by decide, ringFits_sampleBuffered⟩, by decide, by decide,
    discontinuity_delivered_once sampleConsts (by decide) (by decide) sampleEvents sampleBuffered
      ringFits_sampleBuffered⟩

/-- C9 (activation is atomic on failure): from the Idle state, when any of the
four steps of `activateStream` fails (device open, configuration, zero MTU,
trigger start), the call returns `SOAPY_SDR_STREAM_ERROR` and leaves the
session Idle: running flag false, no worker thread started, stored handle null
and no device held open. -/
theorem activateStream_failure_atomic (k : Consts) (s : SoapyHarogic) (dev : ActivateAnswers)
    (hidle : Idle s) (hant : (s._rx_ports.lookup s._antenna).isSome = true)
    (hfail : StepFails dev) :
    (activateStream k s dev).2 = Outcome.returned SOAPY_SDR_STREAM_ERROR ∧
    (activateStream k s dev).1._rx_thread_running = false ∧
    (activateStream k s dev).1._rx_worker_thread = false ∧
    (activateStream k s dev).1._dev_handle = nullptr ∧
    handleOpen (activateStream k s dev).1.calls = false ∧
    Idle (activateStream k s dev).1 := by
  obtain ⟨h1, h2, h3, h4⟩ := hidle
  obtain ⟨port, hport⟩ := Option.isSome_iff_exists.mp hant
  have key : (activateStream k s dev).2 = Outcome.returned SOAPY_SDR_STREAM_ERROR ∧
      Idle (activateStream k s dev).1 := by
    by_cases ho : dev.Device_Open_ret < 0
    · simp [activateStream, Device_Open, Idle, handleOpen_append, handleStep, h1, h2, h3, h4, ho]
    · by_cases hc : dev.IQS_Configuration_ret < 0
      · simp [activateStream, activateConfigured, Device_Open, IQS_ProfileDeInit, profileHead,
          profileTail, IQS_Configuration, Device_Close, Idle, handleOpen_append, handleStep, h1, h2,
          ho, hc, hport]
      · by_cases hm : dev.IQS_Configuration_PacketSamples = 0
        · simp [activateStream, activateConfigured, Device_Open, IQS_ProfileDeInit, profileHead,
            profileTail, IQS_Configuration, Device_Close, Idle, handleOpen_append, handleStep, h1, h2,
            ho, hc, hm, hport]
        · have ht : dev.IQS_BusTriggerStart_ret < 0 := by
            rcases hfail with h | h | h | h
            · exact absurd h ho
            · exact absurd h hc
            · exact absurd h hm
            · exact h
          simp [activateStream, activateConfigured, Device_Open, IQS_ProfileDeInit, profileHead,
            profileTail, IQS_Configuration, IQS_BusTriggerStart, Device_Close, Idle,
            handleOpen_append, handleStep, h1, h2, ho, hc, hm, ht, hport]
  exact ⟨key.1, key.2.1, key.2.2.1, key.2.2.2.1, key.2.2.2.2, key.2⟩

theorem idle_sampleIdle : Idle sampleIdle := ⟨rfl, rfl, rfl, rfl⟩

/-- A trigger start that fails on a freshly constructed object: the device was
opened and configured, is closed again, and the object is Idle. -/
theorem activateStream_failure_atomic_witness :
    (Idle sampleIdle ∧ (sampleIdle._rx_ports.lookup sampleIdle._antenna).isSome = true ∧
      StepFails sampleTriggerFails) ∧
    (activateStream sampleConsts sampleIdle sampleTriggerFails).1.calls.length = 5 ∧
    ((activateStream sampleConsts sampleIdle sampleTriggerFails).2
        = Outcome.returned SOAPY_SDR_STREAM_ERROR ∧
      (activateStream sampleConsts sampleIdle sampleTriggerFails).1._rx_thread_running = false ∧
      (activateStream sampleConsts sampleIdle sampleTriggerFails).1._rx_worker_thread = false ∧
      (activateStream sampleConsts sampleIdle sampleTriggerFails).1._dev_handle = nullptr ∧
      handleOpen (activateStream sampleConsts sampleIdle sampleTriggerFails).1.calls = false ∧
      Idle (activateStream sampleConsts sampleIdle sampleTriggerFails).1) :=
  ⟨⟨idle_sampleIdle, by decide, Or.inr (Or.inr (Or.inr (by decide)))⟩, by decide,
    activateStream_failure_atomic sampleConsts sampleIdle sampleTriggerFails idle_sampleIdle
      (by decide) (Or.inr (Or.inr (Or.inr (by decide))))⟩

/-- C10 (idempotence): `activateStream` on a Streaming session returns 0 and
leaves every member and the list of vendor calls as they were; so does
`deactivateStream` on an Idle session, in particular on a freshly constructed
object and on the object left by a previous `deactivateStream`. -/
theorem stream_idempotent (k : Consts) (s : SoapyHarogic) (dev : ActivateAnswers)
    (serial : String) (dev_index : Int) (native : ℚ) (profile : IQS_Profile_TypeDef) :
    (Streaming s → activateStream k s dev = (s, Outcome.returned 0)) ∧
    (Idle s → deactivateStream s = (s, 0)) ∧
    deactivateStream (init k serial dev_index native profile)
      = (init k serial dev_index native profile, 0) ∧
    deactivateStream (deactivateStream s).1 = ((deactivateStream s).1, 0) ∧
    (deactivateStream s).2 = 0 := by
  refine ⟨fun hs => ?_, fun hi => ?_, ?_, ?_, ?_⟩
  · have hs' : s._rx_thread_running = true := hs
    simp [activateStream, hs']
  · exact deactivateStream_of_flags s hi.1 hi.2.1
  · exact deactivateStream_of_flags _ rfl rfl
  · exact deactivateStream_of_flags _ (deactivateStream_flags s).1 (deactivateStream_flags s).2
  · simp only [deactivateStream]
    split_ifs <;> rfl

/-- A second `activateStream` on a streaming object and a `deactivateStream`
on a fresh one change nothing. -/
theorem stream_idempotent_witness :
    (Streaming sampleStreaming ∧ Idle sampleIdle) ∧
    sampleStreaming.calls.length = 4 ∧
    (activateStream sampleConsts sampleStreaming sampleTriggerFails).1.calls.length = 4 ∧
    activateStream sampleConsts sampleStreaming sampleTriggerFails
      = (sampleStreaming, Outcome.returned 0) ∧
    deactivateStream sampleIdle = (sampleIdle, 0) ∧
    deactivateStream (deactivateStream sampleStreaming).1
      = ((deactivateStream sampleStreaming).1, 0) :=
  ⟨⟨by unfold Streaming; decide, idle_sampleIdle⟩, by decide, by decide,
    (stream_idempotent sampleConsts sampleStreaming sampleTriggerFails "" 0 0 sampleProfile).1
      (by unfold Streaming; decide),
    (stream_idempotent sampleConsts sampleIdle sampleTriggerFails "" 0 0 sampleProfile).2.1
      idle_sampleIdle,
    (stream_idempotent sampleConsts sampleStreaming sampleTriggerFails "" 0 0
      sampleProfile).2.2.2.1⟩

/-! ## Invariants of reachable objects -/

theorem consistent_of_frame (s t : SoapyHarogic) (hc : core t = core s)
    (ha : t._antenna = s._antenna) (hp : t._rx_ports = s._rx_ports) (h : Consistent s) :
    Consistent t := by
  simp only [core, Prod.mk.injEq] at hc
  obtain ⟨c1, c2, c3, c4⟩ := hc
  unfold Consistent
  rw [ha, hp, c1, c2, c3, c4]
  exact h

theorem apply_settings_frame (k : Consts) (s : SoapyHarogic) (dev : ApplyAnswers) :
    core (_apply_settings k s dev).1 = core s ∧
    (_apply_settings k s dev).1._antenna = s._antenna ∧
    (_apply_settings k s dev).1._rx_ports = s._rx_ports := by
  by_cases h0 : s._dev_handle = nullptr
  · simp [_apply_settings, h0]
  · cases hl : s._rx_ports.lookup s._antenna with
    | none => simp [_apply_settings, applyHead, h0, hl, core]
    | some port =>
      by_cases hc : dev.IQS_Configuration_ret < 0
      · simp [_apply_settings, applyHead, profileTail, IQS_Configuration, h0, hl, hc, core,
          handleOpen_append, handleStep]
      · simp [_apply_settings, applyHead, profileTail, IQS_Configuration, IQS_BusTriggerStart,
          h0, hl, hc, core, handleOpen_append, handleStep]

theorem applyIfRunning_frame (k : Consts) (s : SoapyHarogic) (dev : ApplyAnswers) :
    core (applyIfRunning k s dev).1 = core s ∧
    (applyIfRunning k s dev).1._antenna = s._antenna ∧
    (applyIfRunning k s dev).1._rx_ports = s._rx_ports := by
  unfold applyIfRunning
  split_ifs
  · exact apply_settings_frame k s dev
  · exact ⟨rfl, rfl, rfl⟩

theorem consistent_applyIfRunning (k : Consts) (s : SoapyHarogic) (dev : ApplyAnswers)
    (h : Consistent s) : Consistent (applyIfRunning k s dev).1 := by
  obtain ⟨a, b, c⟩ := applyIfRunning_frame k s dev
  exact consistent_of_frame s _ a b c h

theorem consistent_init (k : Consts) (serial : String) (dev_index : Int) (native : ℚ)
    (profile : IQS_Profile_TypeDef) : Consistent (init k serial dev_index native profile) := by
  refine ⟨?_, fun h => ?_, fun _ => rfl, fun _ _ => rfl⟩
  · show (List.lookup "External" rxPorts).isSome = true
    decide
  · exact Bool.noConfusion h

theorem rxIteration_shape (k : Consts) (s : SoapyHarogic) (p : Pull) :
    ∃ (r o : Bool) (b : RingBuffer Sample),
      (rxIteration k s p).1 = { s with
        _rx_thread_running := r
        _overflow_flag := o
        _ring_buffer := b
        calls := s.calls ++ [DeviceCall.IQS_GetIQStream_PM1 p.ret] } ∧
      (r = s._rx_thread_running ∨ r = false) := by
  simp only [rxIteration]
  by_cases h1 : p.ret < 0
  · rw [if_pos h1]
    by_cases h2 : p.ret = k.APIRETVAL_WARNING_BusTimeOut
    · rw [if_pos h2]
      exact ⟨_, _, _, rfl, Or.inl rfl⟩
    · rw [if_neg h2]
      by_cases h3 : p.ret = k.APIRETVAL_WARNING_IFOverflow
      · rw [if_pos h3]
        exact ⟨_, _, _, rfl, Or.inl rfl⟩
      · rw [if_neg h3]
        exact ⟨_, _, _, rfl, Or.inr rfl⟩
  · rw [if_neg h1]
    cases p.iqs.AlternIQStream with
    | none => exact ⟨_, _, _, rfl, Or.inl rfl⟩
    | some inp =>
      simp only []
      split_ifs
      · exact ⟨_, _, _, rfl, Or.inl rfl⟩
      · exact ⟨_, _, _, rfl, Or.inl rfl⟩

theorem consistent_workerStep (k : Consts) (s : SoapyHarogic) (p : Pull) (h : Consistent s) :
    Consistent (workerStep k s p) := by
  obtain ⟨h1, h2, h3, h4⟩ := h
  unfold workerStep
  split_ifs with hrun
  · obtain ⟨r, o, b, e, _⟩ := rxIteration_shape k s p
    rw [e]
    have hj := h2 hrun
    refine ⟨h1, fun _ => hj, fun h0 => ?_, fun _ hf => ?_⟩
    · have := h3 h0
      simpa [handleOpen_append, handleStep] using this
    · exact absurd (hj.symm.trans hf) (by decide)
  · exact ⟨h1, h2, h3, h4⟩

theorem readStream_frame (s : SoapyHarogic) (numElems : Nat) (flags : Int) :
    core (readStream s numElems flags).self = core s ∧
    (readStream s numElems flags).self._antenna = s._antenna ∧
    (readStream s numElems flags).self._rx_ports = s._rx_ports := by
  by_cases henough : numElems ≤ s._ring_buffer.size
  · rw [readStream_of_enough s numElems flags henough]
    exact ⟨rfl, rfl, rfl⟩
  · cases hrun : s._rx_thread_running
    · rw [readStream_of_stopped s numElems flags hrun (by omega)]
      exact ⟨rfl, rfl, rfl⟩
    · rw [readStream_of_timeout s numElems flags hrun (by omega)]
      exact ⟨rfl, rfl, rfl⟩

theorem setupStream_frame (k : Consts) (s : SoapyHarogic) (direction : Int) (format : String)
    (args : List (String × String)) :
    core (setupStream k s direction format args).1 = core s ∧
    (setupStream k s direction format args).1._antenna = s._antenna ∧
    (setupStream k s direction format args).1._rx_ports = s._rx_ports := by
  simp only [setupStream]
  split_ifs
  · exact ⟨rfl, rfl, rfl⟩
  · exact ⟨rfl, rfl, rfl⟩
  · cases args.lookup "force_8bit" <;> exact ⟨rfl, rfl, rfl⟩

theorem deactivateStream_idle (s : SoapyHarogic) (h : Consistent s) :
    (deactivateStream s).2 = 0 ∧ Idle (deactivateStream s).1 ∧
    (deactivateStream s).1._antenna = s._antenna ∧
    (deactivateStream s).1._rx_ports = s._rx_ports ∧
    (s._dev_handle ≠ nullptr →
      (deactivateStream s).1.calls
        = s.calls ++ [DeviceCall.IQS_BusTriggerStop, DeviceCall.Device_Close]) := by
  obtain ⟨_, _, h3, h4⟩ := h
  by_cases h0 : s._dev_handle = nullptr
  · have ho := h3 h0
    cases hr : s._rx_thread_running <;> cases hj : s._rx_worker_thread <;>
      simp [deactivateStream, Idle, hr, hj, h0, ho]
  · have hnot : ¬ (s._rx_thread_running = false ∧ s._rx_worker_thread = false) :=
      fun hc => h0 (h4 hc.1 hc.2)
    cases hr : s._rx_thread_running <;> cases hj : s._rx_worker_thread <;>
      simp_all [deactivateStream, Idle, IQS_BusTriggerStop, Device_Close, handleOpen_append,
        handleStep]

theorem consistent_of_idle (s : SoapyHarogic) (hi : Idle s)
    (ha : (s._rx_ports.lookup s._antenna).isSome = true) : Consistent s := by
  obtain ⟨i1, _, i3, i4⟩ := hi
  refine ⟨ha, fun h => ?_, fun _ => i4, fun _ _ => i3⟩
  rw [i1] at h
  exact absurd h (by decide)

theorem consistent_deactivateStream (s : SoapyHarogic) (h : Consistent s) :
    Consistent (deactivateStream s).1 := by
  obtain ⟨_, hi, ha, hp, _⟩ := deactivateStream_idle s h
  exact consistent_of_idle _ hi (by rw [ha, hp]; exact h.1)

theorem consistent_closeStream (s : SoapyHarogic) (h : Consistent s) :
    Consistent (closeStream s) :=
  consistent_of_frame (deactivateStream s).1 _ rfl rfl rfl (consistent_deactivateStream s h)

theorem consistent_activateStream (k : Consts) (s : SoapyHarogic) (dev : ActivateAnswers)
    (h : Consistent s) (ho : OpensHandle dev)
    (hnt : (activateStream k s dev).2 ≠ Outcome.terminate) :
    Consistent (activateStream k s dev).1 := by
  obtain ⟨h1, h2, h3, h4⟩ := h
  obtain ⟨port, hport⟩ := Option.isSome_iff_exists.mp h1
  cases hr : s._rx_thread_running with
  | true =>
    have e : activateStream k s dev = (s, Outcome.returned 0) := by simp [activateStream, hr]
    rw [e]
    exact ⟨h1, h2, h3, h4⟩
  | false =>
    by_cases a : dev.Device_Open_ret < 0
    · simp only [Consistent, activateStream, Device_Open, handleOpen_append, handleStep, hr, a,
        if_true, List.foldl_cons, List.foldl_nil, Bool.false_eq_true, if_false]
      exact ⟨h1, fun x => absurd x (by decide), h3, fun _ => h4 hr⟩
    · have hh : dev.Device_Open_handle ≠ nullptr := ho (by omega)
      have hnt' := hnt
      by_cases b : dev.IQS_Configuration_ret < 0
      · simp [Consistent, activateStream, activateConfigured, Device_Open, IQS_ProfileDeInit,
          profileHead, profileTail, IQS_Configuration, Device_Close, handleOpen_append,
          handleStep, hr, a, b, hport]
      · by_cases c : dev.IQS_Configuration_PacketSamples = 0
        · simp [Consistent, activateStream, activateConfigured, Device_Open, IQS_ProfileDeInit,
            profileHead, profileTail, IQS_Configuration, Device_Close, handleOpen_append,
            handleStep, hr, a, b, c, hport]
        · by_cases d : dev.IQS_BusTriggerStart_ret < 0
          · simp [Consistent, activateStream, activateConfigured, Device_Open,
              IQS_ProfileDeInit, profileHead, profileTail, IQS_Configuration,
              IQS_BusTriggerStart, Device_Close, handleOpen_append, handleStep, hr, a, b, c, d,
              hport]
          · cases hj : s._rx_worker_thread with
            | true =>
              exfalso
              apply hnt'
              simp [activateStream, activateConfigured, Device_Open, IQS_ProfileDeInit,
                profileHead, profileTail, IQS_Configuration, IQS_BusTriggerStart, hr, a, b, c,
                d, hj, hport]
            | false =>
              simp [Consistent, activateStream, activateConfigured, Device_Open,
                IQS_ProfileDeInit, profileHead, profileTail, IQS_Configuration,
                IQS_BusTriggerStart, handleOpen_append, handleStep, hr, a, b, c, d, hj, hport,
                hh]

theorem consistent_setAntenna (k : Consts) (s : SoapyHarogic) (name : String)
    (dev : ApplyAnswers) (h : Consistent s) : Consistent (setAntenna k s name dev).1 := by
  unfold setAntenna
  split_ifs with hn
  · exact h
  · apply consistent_applyIfRunning
    refine ⟨?_, h.2.1, h.2.2.1, h.2.2.2⟩
    cases hl : s._rx_ports.lookup name with
    | none => simp [hl] at hn
    | some port => simp [hl]

theorem consistent_setGain (k : Consts) (s : SoapyHarogic) (name : String) (value : ℚ)
    (dev : ApplyAnswers) (h : Consistent s) : Consistent (setGain k s name value dev).1 := by
  simp only [setGain]
  apply consistent_applyIfRunning
  split_ifs <;> exact h

theorem consistent_writeSetting (k : Consts) (s : SoapyHarogic) (key value : String)
    (dev : ApplyAnswers) (h : Consistent s) :
    Consistent (writeSetting k s key value dev).1 := by
  simp only [writeSetting]
  apply consistent_applyIfRunning
  split_ifs <;> exact h

theorem consistent_of_reachable (k : Consts) (s : SoapyHarogic) (h : SessionReachable k s) :
    Consistent s := by
  induction h with
  | init serial dev_index native profile => exact consistent_init k serial dev_index native profile
  | worker s p _ ih => exact consistent_workerStep k s p ih
  | readStream s numElems flags _ ih =>
    obtain ⟨a, b, c⟩ := readStream_frame s numElems flags
    exact consistent_of_frame s _ a b c ih
  | activateStream s dev _ ho hnt ih => exact consistent_activateStream k s dev ih ho hnt
  | deactivateStream s _ ih => exact consistent_deactivateStream s ih
  | setupStream s direction format args _ ih =>
    obtain ⟨a, b, c⟩ := setupStream_frame k s direction format args
    exact consistent_of_frame s _ a b c ih
  | closeStream s _ ih => exact consistent_closeStream s ih
  | setAntenna s name dev _ ih => exact consistent_setAntenna k s name dev ih
  | setSampleRate s rate dev _ ih => exact consistent_applyIfRunning k _ dev ih
  | setFrequency s frequency dev _ ih => exact consistent_applyIfRunning k _ dev ih
  | setGain s name value dev _ ih => exact consistent_setGain k s name value dev ih
  | writeSetting s key value dev _ ih => exact consistent_writeSetting k s key value dev ih

/-! ## Claims on deactivation and on the control API -/

/-- C11 (deactivation always reaches Idle): from every reachable object,
`deactivateStream` returns 0 and leaves the running flag false, the worker
thread joined, the stored handle null and the device closed; when a handle was
stored, the vendor calls made are the trigger stop and the close of the device.
This includes the object left by a worker that stopped itself after a fatal
pull error (flag false, thread still joinable), which the early-return test
does not take for Idle. -/
theorem deactivateStream_reaches_idle (k : Consts) (s : SoapyHarogic)
    (h : SessionReachable k s) :
    (deactivateStream s).2 = 0 ∧
    (deactivateStream s).1._rx_thread_running = false ∧
    (deactivateStream s).1._rx_worker_thread = false ∧
    (deactivateStream s).1._dev_handle = nullptr ∧
    handleOpen (deactivateStream s).1.calls = false ∧
    Idle (deactivateStream s).1 ∧
    (s._dev_handle ≠ nullptr →
      (deactivateStream s).1.calls
        = s.calls ++ [DeviceCall.IQS_BusTriggerStop, DeviceCall.Device_Close]) ∧
    (s._rx_thread_running = false → s._rx_worker_thread = true →
      (deactivateStream s).1 ≠ s) := by
  obtain ⟨r, hi, _, _, hc⟩ := deactivateStream_idle s (consistent_of_reachable k s h)
  refine ⟨r, hi.1, hi.2.1, hi.2.2.1, hi.2.2.2, hi, hc, fun _ hj hs => ?_⟩
  have hj' := hi.2.1
  rw [hs, hj] at hj'
  exact absurd hj' (by decide)

theorem reachable_sampleStreaming : SessionReachable sampleConsts sampleStreaming :=
  SessionReachable.activateStream sampleIdle sampleAnswers
    (SessionReachable.init "1A2B" 0 122880000 sampleProfile) (fun _ => by decide) (by decide)

/-- Deactivation after the worker stopped itself: the thread is joined and the
device, still open, is trigger-stopped and closed. -/
theorem deactivateStream_reaches_idle_witness :
    SessionReachable sampleConsts sampleSelfStopped ∧
    (sampleSelfStopped._rx_thread_running = false ∧ sampleSelfStopped._rx_worker_thread = true ∧
      sampleSelfStopped._dev_handle = 4096 ∧ handleOpen sampleSelfStopped.calls = true) ∧
    (deactivateStream sampleSelfStopped).1.calls.length = sampleSelfStopped.calls.length + 2 ∧
    ((deactivateStream sampleSelfStopped).2 = 0 ∧
      (deactivateStream sampleSelfStopped).1._rx_thread_running = false ∧
      (deactivateStream sampleSelfStopped).1._rx_worker_thread = false ∧
      (deactivateStream sampleSelfStopped).1._dev_handle = nullptr ∧
      handleOpen (deactivateStream sampleSelfStopped).1.calls = false ∧
      Idle (deactivateStream sampleSelfStopped).1 ∧
      (sampleSelfStopped._dev_handle ≠ nullptr →
        (deactivateStream sampleSelfStopped).1.calls
          = sampleSelfStopped.calls ++ [DeviceCall.IQS_BusTriggerStop, DeviceCall.Device_Close]) ∧
      (sampleSelfStopped._rx_thread_running = false →
        sampleSelfStopped._rx_worker_thread = true →
        (deactivateStream sampleSelfStopped).1 ≠ sampleSelfStopped)) :=
  ⟨SessionReachable.worker sampleStreaming fatalPull reachable_sampleStreaming,
    ⟨by decide, by decide, by decide, by decide⟩, by decide,
    deactivateStream_reaches_idle sampleConsts sampleSelfStopped
      (SessionReachable.worker sampleStreaming fatalPull reachable_sampleStreaming)⟩

/-- C12 (validation errors mutate nothing): `setAntenna` with a name that is not
a key of `_rx_ports` raises and leaves the object as it was, without any vendor
call; `setupStream` with a direction other than RX or a format other than CF32
raises and leaves the object, the force-8-bit and sample-width flags included,
as it was; `setAntenna` with a registered name raises nothing and `getAntenna`
then returns that name. -/
theorem validation_errors_mutate_nothing (k : Consts) (s : SoapyHarogic) (name : String)
    (dev : ApplyAnswers) (direction : Int) (format : String) (args : List (String × String)) :
    ((s._rx_ports.lookup name).isNone = true →
      setAntenna k s name dev = (s, Raised.runtime_error ("Invalid antenna name: " ++ name))) ∧
    (direction ≠ SOAPY_SDR_RX ∨ format ≠ SOAPY_SDR_CF32 →
      (setupStream k s direction format args).1 = s ∧
      ∃ what, (setupStream k s direction format args).2 = Raised.runtime_error what) ∧
    ((s._rx_ports.lookup name).isSome = true →
      (setAntenna k s name dev).2 = Raised.none ∧
      getAntenna (setAntenna k s name dev).1 = name) := by
  refine ⟨fun hn => ?_, fun hbad => ?_, fun hs => ?_⟩
  · simp [setAntenna, hn]
  · by_cases hd : direction = SOAPY_SDR_RX
    · have hf : format ≠ SOAPY_SDR_CF32 := by
        rcases hbad with h | h
        · exact absurd hd h
        · exact h
      simp [setupStream, hd, hf]
    · simp [setupStream, hd]
  · obtain ⟨port, hport⟩ := Option.isSome_iff_exists.mp hs
    have hn : ¬ (s._rx_ports.lookup name).isNone = true := by simp [hport]
    have e : setAntenna k s name dev = applyIfRunning k { s with _antenna := name } dev := by
      simp only [setAntenna]
      rw [if_neg hn]
    rw [e, getAntenna, (applyIfRunning_frame k _ dev).2.1]
    refine ⟨?_, rfl⟩
    unfold applyIfRunning
    split_ifs
    · by_cases h0 : s._dev_handle = nullptr
      · simp [_apply_settings, h0]
      · by_cases hc : dev.IQS_Configuration_ret < 0
        · simp [_apply_settings, applyHead, h0, hc, hport]
        · simp [_apply_settings, applyHead, h0, hc, hport]
    · rfl

/-- On a streaming object: an unknown antenna name and a TX direction are
refused without change, the registered name "ANT" is accepted. -/
theorem validation_errors_mutate_nothing_witness :
    (sampleStreaming._rx_ports.lookup "Whip").isNone = true ∧
    (sampleStreaming._rx_ports.lookup "ANT").isSome = true ∧
    (setAntenna sampleConsts sampleStreaming "Whip" sampleApply).1 = sampleStreaming ∧
    (setupStream sampleConsts sampleStreaming 0 "CF32" [("force_8bit", "true")]).1
      = sampleStreaming ∧
    (setupStream sampleConsts sampleStreaming SOAPY_SDR_RX "CS16" [("force_8bit", "true")]).1
      = sampleStreaming ∧
    (setAntenna sampleConsts sampleStreaming "ANT" sampleApply).2 = Raised.none ∧
    getAntenna (setAntenna sampleConsts sampleStreaming "ANT" sampleApply).1 = "ANT" :=
  ⟨by decide, by decide,
    congrArg Prod.fst
      ((validation_errors_mutate_nothing sampleConsts sampleStreaming "Whip" sampleApply 0 "CF32"
        []).1 (by decide)),
    ((validation_errors_mutate_nothing sampleConsts sampleStreaming "Whip" sampleApply 0 "CF32"
        [("force_8bit", "true")]).2.1 (Or.inl (by decide))).1,
    ((validation_errors_mutate_nothing sampleConsts sampleStreaming "Whip" sampleApply
        SOAPY_SDR_RX "CS16" [("force_8bit", "true")]).2.1 (Or.inr (by decide))).1,
    ((validation_errors_mutate_nothing sampleConsts sampleStreaming "ANT" sampleApply 0 "CF32"
        []).2.2 (by decide)).1,
    ((validation_errors_mutate_nothing sampleConsts sampleStreaming "ANT" sampleApply 0 "CF32"
        []).2.2 (by decide)).2⟩

/-! ## Claims on the worker -/

theorem abs_div_gt_one_iff (x m : Int) (hm : 0 < m) (hlo : -(m + 1) ≤ x) (hhi : x ≤ m) :
    1 < |(x : ℚ) / (m : ℚ)| ↔ x = -(m + 1) := by
  have hmq : (0 : ℚ) < (m : ℚ) := by exact_mod_cast hm
  rw [abs_div, abs_of_pos hmq, lt_div_iff₀ hmq, one_mul]
  constructor
  · intro h
    by_contra hne
    have h1 : -(m : ℚ) ≤ (x : ℚ) := by
      have : -m ≤ x := by omega
      exact_mod_cast this
    have h2 : (x : ℚ) ≤ (m : ℚ) := by exact_mod_cast hhi
    have := abs_le.mpr ⟨h1, h2⟩
    linarith
  · intro h
    subst h
    have : ((-(m + 1) : Int) : ℚ) = -((m : ℚ) + 1) := by push_cast; ring
    rw [this, abs_neg, abs_of_pos (by linarith)]
    linarith

theorem rxIteration_publish (k : Consts) (s : SoapyHarogic) (p : Pull) (inp : List Int)
    (hret : 0 ≤ p.ret) (hpay : p.iqs.AlternIQStream = some inp)
    (hn : p.iqs.PacketSamples ≠ 0) :
    rxIteration k s p =
      ({ s with
          _ring_buffer :=
            (s._ring_buffer.write (convert s._samps_int8 inp p.iqs.PacketSamples)).2
          calls := s.calls ++ [DeviceCall.IQS_GetIQStream_PM1 p.ret] }, LoopCtl.next) := by
  have h1 : ¬ p.ret < 0 := by omega
  simp only [rxIteration, hpay]
  rw [if_neg h1, if_neg hn]

/-- C13 (conversion by the signed full-scale magnitude): for a packet of `n`
interleaved I/Q pairs the converter yields `n` samples, sample `i` being
`(in[2i]/127, in[2i+1]/127)` in 8-bit mode and `(in[2i]/32767, in[2i+1]/32767)`
in 16-bit mode, over exact rationals, and these are the samples the worker
publishes. The 8-bit pair (127, -127) gives (1, -1), the 16-bit pair
(32767, -32768) gives (1, -32768/32767), at distance 1/32767 from -1, and a
component exceeds 1 in magnitude only for the input -128, respectively -32768. -/
theorem conversion_full_scale (inp : List Int) (n i : Nat) (hi : i < n) :
    (convert true inp n).length = n ∧ (convert false inp n).length = n ∧
    (convert true inp n)[i]? =
      some (((inp.getD (2 * i) 0 : Int) : ℚ) / 127, ((inp.getD (2 * i + 1) 0 : Int) : ℚ) / 127) ∧
    (convert false inp n)[i]? =
      some (((inp.getD (2 * i) 0 : Int) : ℚ) / 32767,
        ((inp.getD (2 * i + 1) 0 : Int) : ℚ) / 32767) ∧
    (∀ (k : Consts) (s : SoapyHarogic) (p : Pull), 0 ≤ p.ret →
      p.iqs.AlternIQStream = some inp → p.iqs.PacketSamples = n →
      (rxIteration k s p).1._ring_buffer
        = (s._ring_buffer.write (convert s._samps_int8 inp n)).2) ∧
    convert true [127, -127] 1 = [(1, -1)] ∧
    convert false [32767, -32768] 1 = [(1, -32768 / 32767)] ∧
    |(-32768 / 32767 : ℚ) - (-1)| = 1 / 32767 ∧
    (∀ x : Int, -128 ≤ x → x ≤ 127 → (1 < |(x : ℚ) / 127| ↔ x = -128)) ∧
    (∀ x : Int, -32768 ≤ x → x ≤ 32767 → (1 < |(x : ℚ) / 32767| ↔ x = -32768)) := by
  refine ⟨by simp [convert], by simp [convert], ?_, ?_, ?_, ?_, ?_, ?_, ?_, ?_⟩
  · simp [convert, List.getElem?_range hi]
  · simp [convert, List.getElem?_range hi]
  · intro k s p hret hpay hn
    rw [rxIteration_publish k s p inp hret hpay (by omega), hn]
  · simp [convert, List.range_succ]
  · simp [convert, List.range_succ]
  · norm_num [abs_of_neg]
  · intro x hlo hhi
    have := abs_div_gt_one_iff x 127 (by norm_num) (by omega) hhi
    simpa using this
  · intro x hlo hhi
    have := abs_div_gt_one_iff x 32767 (by norm_num) (by omega) hhi
    simpa using this

/-- The second of two 8-bit pairs, (-128, 0), is converted to (-128/127, 0). -/
theorem conversion_full_scale_witness :
    (1 < 2) ∧
    (convert true [127, -127, -128, 0] 2).length = 2 ∧
    (convert true [127, -127, -128, 0] 2)[1]? = some ((-128 / 127, 0) : Sample) ∧
    (convert false [32767, -32768] 1)[0]? = some ((1, -32768 / 32767) : Sample) := by
  have h := conversion_full_scale [127, -127, -128, 0] 2 1 (by decide)
  have g := conversion_full_scale [32767, -32768] 1 0 (by decide)
  refine ⟨by decide, h.1, ?_, ?_⟩
  · rw [h.2.2.1]
    norm_num
  · rw [g.2.2.2.1]
    norm_num

/-- C15 (pull classification): one iteration of the worker changes the object
as the pull result dictates. The bus-timeout code changes no member; the
IF-overflow code sets the overflow signal and changes no other member; a
successful pull with zero samples or a null payload changes no member; any
other negative code clears the running flag and leaves the loop, and only such
a code makes the worker clear the flag or leave the loop. (The list of vendor
calls records the pull in every case.) -/
theorem worker_pull_classification (k : Consts) (s : SoapyHarogic) (p : Pull)
    (hbt : k.APIRETVAL_WARNING_BusTimeOut < 0) (hov : k.APIRETVAL_WARNING_IFOverflow < 0)
    (hne : k.APIRETVAL_WARNING_IFOverflow ≠ k.APIRETVAL_WARNING_BusTimeOut) :
    (p.ret = k.APIRETVAL_WARNING_BusTimeOut →
      rxIteration k s p =
        ({ s with calls := s.calls ++ [DeviceCall.IQS_GetIQStream_PM1 p.ret] }, LoopCtl.next)) ∧
    (p.ret = k.APIRETVAL_WARNING_IFOverflow →
      rxIteration k s p =
        ({ s with _overflow_flag := true
                  calls := s.calls ++ [DeviceCall.IQS_GetIQStream_PM1 p.ret] }, LoopCtl.next)) ∧
    (0 ≤ p.ret → (p.iqs.PacketSamples = 0 ∨ p.iqs.AlternIQStream = none) →
      rxIteration k s p =
        ({ s with calls := s.calls ++ [DeviceCall.IQS_GetIQStream_PM1 p.ret] }, LoopCtl.next)) ∧
    (p.ret < 0 → p.ret ≠ k.APIRETVAL_WARNING_BusTimeOut →
      p.ret ≠ k.APIRETVAL_WARNING_IFOverflow →
      rxIteration k s p =
        ({ s with _rx_thread_running := false
                  calls := s.calls ++ [DeviceCall.IQS_GetIQStream_PM1 p.ret] }, LoopCtl.stop)) ∧
    ((rxIteration k s p).2 = LoopCtl.stop ∨
        (rxIteration k s p).1._rx_thread_running ≠ s._rx_thread_running →
      p.ret < 0 ∧ p.ret ≠ k.APIRETVAL_WARNING_BusTimeOut ∧
      p.ret ≠ k.APIRETVAL_WARNING_IFOverflow) := by
  refine ⟨fun h => ?_, fun h => ?_, fun h hz => ?_, fun h1 h2 h3 => ?_, fun hstop => ?_⟩
  · have h1 : p.ret < 0 := h ▸ hbt
    simp only [rxIteration]
    rw [if_pos h1, if_pos h]
  · have h1 : p.ret < 0 := h ▸ hov
    have h2 : p.ret ≠ k.APIRETVAL_WARNING_BusTimeOut := h ▸ hne
    simp only [rxIteration]
    rw [if_pos h1, if_neg h2, if_pos h]
  · have h1 : ¬ p.ret < 0 := by omega
    simp only [rxIteration]
    rw [if_neg h1]
    cases hp : p.iqs.AlternIQStream with
    | none => rfl
    | some inp =>
      rcases hz with hz | hz
      · simp only []
        rw [if_pos hz]
      · rw [hp] at hz
        cases hz
  · simp only [rxIteration]
    rw [if_pos h1, if_neg h2, if_neg h3]
  · by_contra hnot
    have hcase : ¬ p.ret < 0 ∨ p.ret = k.APIRETVAL_WARNING_BusTimeOut ∨
        p.ret = k.APIRETVAL_WARNING_IFOverflow := by
      by_cases a : p.ret < 0
      · by_cases b : p.ret = k.APIRETVAL_WARNING_BusTimeOut
        · exact Or.inr (Or.inl b)
        · by_cases c : p.ret = k.APIRETVAL_WARNING_IFOverflow
          · exact Or.inr (Or.inr c)
          · exact absurd ⟨a, b, c⟩ hnot
      · exact Or.inl a
    have hsame : (rxIteration k s p).2 = LoopCtl.next ∧
        (rxIteration k s p).1._rx_thread_running = s._rx_thread_running := by
      simp only [rxIteration]
      rcases hcase with a | b | c
      · rw [if_neg a]
        cases p.iqs.AlternIQStream with
        | none => exact ⟨rfl, rfl⟩
        | some inp =>
          simp only []
          split_ifs <;> exact ⟨rfl, rfl⟩
      · rw [if_pos (b ▸ hbt), if_pos b]
        exact ⟨rfl, rfl⟩
      · rw [if_pos (c ▸ hov), if_neg (c ▸ hne), if_pos c]
        exact ⟨rfl, rfl⟩
    rcases hstop with h | h
    · rw [hsame.1] at h
      cases h
    · exact h hsame.2

/-- The four kinds of pull on a streaming object, for the sample codes -10
(bus timeout) and -12 (IF overflow). -/
theorem worker_pull_classification_witness :
    (sampleConsts.APIRETVAL_WARNING_BusTimeOut < 0 ∧
      sampleConsts.APIRETVAL_WARNING_IFOverflow < 0 ∧
      sampleConsts.APIRETVAL_WARNING_IFOverflow ≠ sampleConsts.APIRETVAL_WARNING_BusTimeOut) ∧
    sampleStreaming._rx_thread_running = true ∧
    (rxIteration sampleConsts sampleStreaming fatalPull).1._rx_thread_running = false ∧
    (rxIteration sampleConsts sampleStreaming fatalPull).2 = LoopCtl.stop ∧
    (rxIteration sampleConsts sampleStreaming overflowPull).1._overflow_flag = true ∧
    (rxIteration sampleConsts sampleStreaming overflowPull).1._rx_thread_running = true ∧
    rxIteration sampleConsts sampleStreaming fatalPull =
      ({ sampleStreaming with
          _rx_thread_running := false
          calls := sampleStreaming.calls ++ [DeviceCall.IQS_GetIQStream_PM1 fatalPull.ret] },
        LoopCtl.stop) :=
  ⟨⟨by decide, by decide, by decide⟩, by decide, by decide, by decide, by decide, by decide,
    (worker_pull_classification sampleConsts sampleStreaming fatalPull (by decide) (by decide)
      (by decide)).2.2.2.1 (by decide) (by decide) (by decide)⟩

/-- C16 (local overflow dropped silently): when the packet of a successful pull
does not fit in the free space of the ring buffer, the publish step is
rejected and the whole packet is discarded: ring buffer, running flag and
overflow signal are as before (no member changes), the loop goes on, and a
following successful `readStream` reports `SOAPY_SDR_END_BURST` only if the
overflow signal was already set by a device IF overflow, otherwise 0. -/
theorem ring_overflow_dropped_silently (k : Consts) (s : SoapyHarogic) (p : Pull)
    (inp : List Int) (hring : RingFits s) (hret : 0 ≤ p.ret)
    (hpay : p.iqs.AlternIQStream = some inp) (hn : p.iqs.PacketSamples ≠ 0)
    (hfull : s._ring_buffer.capacity - s._ring_buffer.size < p.iqs.PacketSamples) :
    (s._ring_buffer.write (convert s._samps_int8 inp p.iqs.PacketSamples)).1 = false ∧
    rxIteration k s p =
      ({ s with calls := s.calls ++ [DeviceCall.IQS_GetIQStream_PM1 p.ret] }, LoopCtl.next) ∧
    (rxIteration k s p).1._ring_buffer = s._ring_buffer ∧
    (rxIteration k s p).1._rx_thread_running = s._rx_thread_running ∧
    (rxIteration k s p).1._overflow_flag = s._overflow_flag ∧
    (∀ (numElems : Nat) (flags : Int), numElems ≤ s._ring_buffer.size →
      0 ≤ (readStream (rxIteration k s p).1 numElems flags).ret ∧
      (readStream (rxIteration k s p).1 numElems flags).flags
        = (if s._overflow_flag then SOAPY_SDR_END_BURST else 0)) := by
  have hwf := RingBuffer.WF_of_reachable _ hring.1
  have hlen : (convert s._samps_int8 inp p.iqs.PacketSamples).length = p.iqs.PacketSamples := by
    simp [convert]
  have hrej := RingBuffer.write_reject s._ring_buffer hwf
    (convert s._samps_int8 inp p.iqs.PacketSamples) (by rw [hlen]; exact Nat.not_le.mpr hfull)
  have hit : rxIteration k s p =
      ({ s with calls := s.calls ++ [DeviceCall.IQS_GetIQStream_PM1 p.ret] }, LoopCtl.next) := by
    rw [rxIteration_publish k s p inp hret hpay hn, hrej]
  refine ⟨by rw [hrej], hit, by rw [hit], by rw [hit], by rw [hit], ?_⟩
  intro numElems flags henough
  have key : ∀ t : SoapyHarogic, RingFits t → t._ring_buffer = s._ring_buffer →
      t._overflow_flag = s._overflow_flag →
      0 ≤ (readStream t numElems flags).ret ∧
      (readStream t numElems flags).flags
        = (if s._overflow_flag then SOAPY_SDR_END_BURST else 0) := by
    intro t hfits hb ho
    have he : numElems ≤ t._ring_buffer.size := by rw [hb]; exact henough
    constructor
    · rw [(readStream_enough_spec t hfits numElems flags he).1]
      omega
    · rw [readStream_of_enough t numElems flags he, ← ho]
  rw [hit]
  exact key _ hring rfl rfl

theorem ringFits_sampleNearlyFull : RingFits sampleNearlyFull :=
  ⟨RingBuffer.Reachable.write _ _ (RingBuffer.Reachable.new 8 (by decide)), by decide⟩

/-- A packet of two samples offered to a ring buffer of capacity 8 that holds
seven: the packet is dropped and the next read of seven reports flags 0. -/
theorem ring_overflow_dropped_silently_witness :
    (RingFits sampleNearlyFull ∧ 0 ≤ dataPull.ret ∧
      dataPull.iqs.AlternIQStream = some [127, -127, -128, 0] ∧
      dataPull.iqs.PacketSamples ≠ 0 ∧
      sampleNearlyFull._ring_buffer.capacity - sampleNearlyFull._ring_buffer.size
        < dataPull.iqs.PacketSamples) ∧
    sampleNearlyFull._overflow_flag = false ∧
    (rxIteration sampleConsts sampleNearlyFull dataPull).1._ring_buffer.size = 7 ∧
    (rxIteration sampleConsts sampleNearlyFull dataPull).1._ring_buffer
      = sampleNearlyFull._ring_buffer ∧
    (rxIteration sampleConsts sampleNearlyFull dataPull).1._rx_thread_running = true ∧
    (rxIteration sampleConsts sampleNearlyFull dataPull).1._overflow_flag = false ∧
    (readStream (rxIteration sampleConsts sampleNearlyFull dataPull).1 7 5).flags = 0 := by
  have h := ring_overflow_dropped_silently sampleConsts sampleNearlyFull dataPull
    [127, -127, -128, 0] ringFits_sampleNearlyFull (by decide) rfl (by decide) (by decide)
  refine ⟨⟨ringFits_sampleNearlyFull, by decide, rfl, by decide, by decide⟩, by decide, ?_,
    h.2.2.1, ?_, ?_, ?_⟩
  · rw [h.2.2.1]
    decide
  · rw [h.2.2.2.1]
    decide
  · rw [h.2.2.2.2.1]
    decide
  · rw [(h.2.2.2.2.2 7 5 (by decide)).2]
    decide

/-! ## The sample width while streaming -/

theorem lastDataFormat_append (calls more : List DeviceCall) :
    lastDataFormat (calls ++ more) =
      more.foldl (fun r c =>
        match c with
        | DeviceCall.IQS_Configuration ProfileIn _ => some ProfileIn.DataFormat
        | _ => r) (lastDataFormat calls) := by
  simp only [lastDataFormat, List.foldl_append]

/-- What `_apply_settings` does for the sample width when a handle is stored and
the antenna is registered: the flag is recomputed from the rate and the force
flag, and the profile sent to the device carries the matching `DataFormat`. -/
theorem apply_settings_width (k : Consts) (s : SoapyHarogic) (dev : ApplyAnswers)
    (port : RxPort_TypeDef) (hh : s._dev_handle ≠ nullptr)
    (hport : s._rx_ports.lookup s._antenna = some port) :
    (_apply_settings k s dev).1._samps_int8
      = (decide (s._sample_rate > k.RESOLTRIG) || s._force_8bit) ∧
    lastDataFormat (_apply_settings k s dev).1.calls
      = some (if (_apply_settings k s dev).1._samps_int8 then DataFormat_TypeDef.Complex8bit
          else DataFormat_TypeDef.Complex16bit) := by
  by_cases hc : dev.IQS_Configuration_ret < 0
  · simp [_apply_settings, applyHead, profileTail, IQS_Configuration, hh, hport, hc,
      lastDataFormat_append]
  · simp [_apply_settings, applyHead, profileTail, IQS_Configuration, IQS_BusTriggerStart, hh,
      hport, hc, lastDataFormat_append]

/-- What `activateStream` does for the sample width when it starts the stream:
the flag is recomputed and the profile sent to the device carries the matching
`DataFormat`. -/
theorem activateStream_width (k : Consts) (s : SoapyHarogic) (dev : ActivateAnswers)
    (hidle : s._rx_thread_running = false)
    (hok : (activateStream k s dev).2 = Outcome.returned 0) :
    (activateStream k s dev).1._rx_thread_running = true ∧
    (activateStream k s dev).1._samps_int8
      = (decide (s._sample_rate > k.RESOLTRIG) || s._force_8bit) ∧
    lastDataFormat (activateStream k s dev).1.calls
      = some (if (activateStream k s dev).1._samps_int8 then DataFormat_TypeDef.Complex8bit
          else DataFormat_TypeDef.Complex16bit) := by
  by_cases a : dev.Device_Open_ret < 0
  · simp [activateStream, hidle, a, SOAPY_SDR_STREAM_ERROR] at hok
  · cases hl : s._rx_ports.lookup s._antenna with
    | none =>
      simp [activateStream, Device_Open, IQS_ProfileDeInit, profileHead, hidle, a, hl] at hok
    | some port =>
      by_cases b : dev.IQS_Configuration_ret < 0
      · simp [activateStream, activateConfigured, Device_Open, IQS_ProfileDeInit, profileHead,
          profileTail, IQS_Configuration, Device_Close, hidle, a, b, hl,
          SOAPY_SDR_STREAM_ERROR] at hok
      · by_cases c : dev.IQS_Configuration_PacketSamples = 0
        · simp [activateStream, activateConfigured, Device_Open, IQS_ProfileDeInit,
            profileHead, profileTail, IQS_Configuration, Device_Close, hidle, a, b, c, hl,
            SOAPY_SDR_STREAM_ERROR] at hok
        · by_cases d : dev.IQS_BusTriggerStart_ret < 0
          · simp [activateStream, activateConfigured, Device_Open, IQS_ProfileDeInit,
              profileHead, profileTail, IQS_Configuration, IQS_BusTriggerStart, Device_Close,
              hidle, a, b, c, d, hl, SOAPY_SDR_STREAM_ERROR] at hok
          · cases hj : s._rx_worker_thread with
            | true =>
              simp [activateStream, activateConfigured, Device_Open, IQS_ProfileDeInit,
                profileHead, profileTail, IQS_Configuration, IQS_BusTriggerStart, hidle, a, b,
                c, d, hj, hl] at hok
            | false =>
              simp [activateStream, activateConfigured, Device_Open, IQS_ProfileDeInit,
                profileHead, profileTail, IQS_Configuration, IQS_BusTriggerStart, hidle, a, b,
                c, d, hj, hl, lastDataFormat_append]

/-- A sample-rate change on a session that is not running is only staged: no
member other than `_sample_rate` changes and no vendor call is made. -/
theorem setSampleRate_staged (k : Consts) (s : SoapyHarogic) (rate : ℚ) (dev : ApplyAnswers)
    (hidle : s._rx_thread_running = false) :
    setSampleRate k s rate dev = ({ s with _sample_rate := rate }, Raised.none) := by
  simp [setSampleRate, applyIfRunning, hidle]

theorem reachable_sampleForced : SessionReachable sampleConsts sampleForced :=
  SessionReachable.setupStream _ _ _ _
    (SessionReachable.activateStream _ sampleAnswers
      (SessionReachable.setupStream _ _ _ _
        (SessionReachable.setSampleRate sampleIdle 1000000 sampleApply
          (SessionReachable.init "1A2B" 0 122880000 sampleProfile)))
      (fun _ => by decide) (by decide))

/-- C14 (sample-width invariant while streaming), evaluated on the calls
`setSampleRate(1e6)`, `setupStream()`, `activateStream()`,
`setupStream(force_8bit=true)`: after the activation the session streams with
the 16-bit format written to the device and the 8-bit flag false; the second
`setupStream` sets the flag, which still equals `(rate > RESOLTRIG) || force`,
but makes no vendor call, so the format last written to the device stays
`Complex16bit` while the worker's converter now reads 8-bit samples. -/
theorem setupStream_breaks_sample_width :
    SessionReachable sampleConsts sampleForced ∧
    (sampleLive._rx_thread_running = true ∧ sampleLive._samps_int8 = false ∧
      lastDataFormat sampleLive.calls = some DataFormat_TypeDef.Complex16bit) ∧
    sampleForced._rx_thread_running = true ∧
    sampleForced._samps_int8 = true ∧
    sampleForced._samps_int8
      = (decide (sampleForced._sample_rate > sampleConsts.RESOLTRIG) || sampleForced._force_8bit) ∧
    sampleForced.calls = sampleLive.calls ∧
    lastDataFormat sampleForced.calls = some DataFormat_TypeDef.Complex16bit ∧
    lastDataFormat sampleForced.calls ≠
      some (if sampleForced._samps_int8 then DataFormat_TypeDef.Complex8bit
        else DataFormat_TypeDef.Complex16bit) :=
  ⟨reachable_sampleForced, ⟨by decide, by decide, by decide⟩, by decide, by decide, by decide,
    rfl, by decide, by decide⟩

end SoapyHarogic

end Harogic
